import Mathlib

/-!
Verification development for the bybitbot Position Risk and
Guaranteed-Execution Engine.

Prices, sizes and times are modelled as rationals (the Python source uses
floats; all the arithmetic relevant to the properties below is exact).
Ambient data that the Python code obtains from the exchange or from pandas
frames (ATR values, regime classification, order outcomes, the clock) is
passed as explicit parameters.  Python dictionaries keyed by position id are
modelled as association lists.  Code paths in which the Python source raises
and catches an exception are modelled by explicit branches returning the
value produced by the corresponding `except` handler.
-/

/-- Order side as used by the exit systems: Bybit "Buy" / "Sell". -/
inductive Side
  | buy
  | sell
deriving DecidableEq, Repr

/-- Position direction as used by the scalping systems: BUY / SELL. -/
inductive Direction
  | BUY
  | SELL
deriving DecidableEq, Repr

/-! ## Dynamic stop-loss adjustment (`app/trading/exit/dynamic_sl.py`) -/

/-- The `adjustment_type` value of an evaluation result. -/
inductive AdjType
  | breakeven
  | trailing
  | volatility
  | regime
  | noAdjust
deriving DecidableEq, Repr

/-- Result dict of one `_evaluate_*` helper of `DynamicStopLossAdjustment`:
keys `should_adjust`, `new_stop_loss`, `adjustment_type`, `confidence`,
`trailing_distance` (0 when absent). -/
structure AdjEval where
  should_adjust : Bool
  new_stop_loss : ℚ
  adjustment_type : AdjType
  confidence : ℚ
  trailing_distance : ℚ
deriving DecidableEq, Repr

/-- Embeds `DynamicStopLossAdjustment._evaluate_breakeven_move`.  `already` is the
`breakeven_triggered` flag from `adjustment_history`.  The guard models the
ZeroDivisionError paths (line 96 divides by `|current - entry|`, line 104/107
by `entry`), both caught by the `except` handler which returns the
no-adjustment dict. -/
def evaluateBreakevenMove (already : Bool) (entry current sl : ℚ)
    (side : Side) : AdjEval :=
  if current = entry ∨ entry = 0 then ⟨false, sl, AdjType.breakeven, 0, 0⟩
  else
    let breakeven_price : ℚ :=
      if side = Side.buy then entry * (1001/1000) else entry * (999/1000)
    let is_profitable : Prop :=
      if side = Side.buy then current > entry else current < entry
    let profit_threshold : Prop :=
      if side = Side.buy then (current - entry) / entry ≥ 15/1000
      else (entry - current) / entry ≥ 15/1000
    if already = false ∧ is_profitable ∧ profit_threshold then
      ⟨true, breakeven_price, AdjType.breakeven, 95/100, 0⟩
    else ⟨false, sl, AdjType.breakeven, 0, 0⟩

/-- Embeds `DynamicStopLossAdjustment._evaluate_trailing_stop`; `atr15` is the last
`atr` value of the 15-minute frame.  When `should_trail` first holds, the
price-move percentage divides by `entry`; `entry = 0` raises and lands in the
`except` handler. -/
def evaluateTrailingStop (entry current sl : ℚ) (side : Side)
    (atr15 : ℚ) : AdjEval :=
  let trailing_distance := atr15 * 2
  let new_trailing_sl : ℚ :=
    if side = Side.buy then current - trailing_distance
    else current + trailing_distance
  let should_trail0 : Prop :=
    if side = Side.buy then new_trailing_sl > sl else new_trailing_sl < sl
  if should_trail0 then
    if entry = 0 then ⟨false, sl, AdjType.trailing, 0, 0⟩
    else if |current - entry| / entry * 100 ≥ 2 then
      ⟨true, new_trailing_sl, AdjType.trailing, 80/100, trailing_distance⟩
    else ⟨false, sl, AdjType.trailing, 0, trailing_distance⟩
  else ⟨false, sl, AdjType.trailing, 0, trailing_distance⟩

/-- Embeds `DynamicStopLossAdjustment._evaluate_volatility_adjustment`; `atr1h` is
the last hourly `atr`, `mean24` the mean of the last 24 hourly `atr` values.
`mean24 = 0` raises on the ratio division and lands in the `except`
handler. -/
def evaluateVolatilityAdjustment (current sl : ℚ) (side : Side)
    (atr1h mean24 : ℚ) : AdjEval :=
  if mean24 = 0 then ⟨false, sl, AdjType.volatility, 0, 0⟩
  else
    let vr := atr1h / mean24
    if vr > 3/2 then
      let adjustment_factor := min vr 2
      let new_distance := |current - sl| * adjustment_factor
      let new_sl : ℚ :=
        if side = Side.buy then current - new_distance else current + new_distance
      ⟨true, new_sl, AdjType.volatility, 70/100, 0⟩
    else if vr < 3/5 then
      let adjustment_factor := max vr (1/2)
      let new_distance := |current - sl| * adjustment_factor
      let new_sl : ℚ :=
        if side = Side.buy then current - new_distance else current + new_distance
      ⟨true, new_sl, AdjType.volatility, 70/100, 0⟩
    else ⟨false, sl, AdjType.volatility, 0, 0⟩

/-- Regime labels returned by `MarketRegimeDetector` (market_regime.py). -/
inductive MarketRegime
  | STRONG_TREND
  | WEAK_TREND
  | RANGE
  | VOLATILE
  | BREAKOUT
deriving DecidableEq, Repr

/-- The `RegimeAnalysis` dataclass fields used here: `detect_regime` returns
an object with attributes `regime` and `confidence` (market_regime.py lines
27-35). -/
structure RegimeAnalysis where
  regime : MarketRegime
  confidence : ℚ
deriving DecidableEq, Repr

/-- Body of `_evaluate_regime_adjustment` lines 262-300, written against the
attribute names that the function reads (`regime_type`,
`confidence_score`). -/
def regimeAdjustBody (current sl : ℚ) (side : Side)
    (regime_type : MarketRegime) (confidence_score : ℚ) : AdjEval :=
  if regime_type = MarketRegime.STRONG_TREND ∧ confidence_score > 8/10 then
    let new_distance := |current - sl| * (8/10)
    let new_sl : ℚ :=
      if side = Side.buy then current - new_distance else current + new_distance
    let should : Prop := if side = Side.buy then new_sl > sl else new_sl < sl
    if should then ⟨true, new_sl, AdjType.regime, 75/100, 0⟩
    else ⟨false, new_sl, AdjType.regime, 0, 0⟩
  else if regime_type = MarketRegime.VOLATILE ∧ confidence_score > 7/10 then
    let new_distance := |current - sl| * (12/10)
    let new_sl : ℚ :=
      if side = Side.buy then current - new_distance else current + new_distance
    let should : Prop := if side = Side.buy then new_sl < sl else new_sl > sl
    if should then ⟨true, new_sl, AdjType.regime, 75/100, 0⟩
    else ⟨false, new_sl, AdjType.regime, 0, 0⟩
  else ⟨false, sl, AdjType.regime, 0, 0⟩

/-- Embeds `_evaluate_regime_adjustment` as actually executed: it reads
`regime.regime_type` and `regime.confidence_score`, but the `RegimeAnalysis`
dataclass produced by `detect_regime` only has attributes `regime` and
`confidence`; the AttributeError is caught by the `except` handler of the
evaluator, which returns the no-adjustment dict.  The translated body is kept
above as `regimeAdjustBody`; this definition returns the handler value. -/
def evaluateRegimeAdjustment (_current : ℚ) (sl : ℚ) (_side : Side)
    (_ra : RegimeAnalysis) : AdjEval :=
  ⟨false, sl, AdjType.regime, 0, 0⟩

/-- Final dict returned by `adjust_stop_loss` / `_optimize_adjustment`. -/
structure FinalAdj where
  new_stop_loss : ℚ
  adjustment_type : AdjType
  breakeven_triggered : Bool
  trailing_distance : ℚ
  confidence_score : ℚ
  original_sl : ℚ
  adjustment_amount : ℚ
deriving DecidableEq, Repr

/-- Embeds `_get_no_adjustment_result`. -/
def noAdjustmentResult (sl : ℚ) : FinalAdj :=
  ⟨sl, AdjType.noAdjust, false, 0, 1/2, sl, 0⟩

/-- Python `max(valid_adjustments, key=confidence)`: the first element of
maximal confidence. -/
def maxByConfidence (h : AdjEval) (t : List AdjEval) : AdjEval :=
  List.foldl (fun best x => if x.confidence > best.confidence then x else best) h t

/-- Embeds `DynamicStopLossAdjustment._optimize_adjustment`: filter the evaluations
that request an adjustment, pick the most confident, override with the
breakeven evaluation when present, then apply the final safety check that
refuses to move the stop in the unfavorable direction. -/
def optimizeAdjustment (sl : ℚ) (b t v r : AdjEval) (side : Side) : FinalAdj :=
  let valid := List.filter (fun a => a.should_adjust = true) [b, t, v, r]
  match valid with
  | [] => noAdjustmentResult sl
  | h :: tl =>
    let best := maxByConfidence h tl
    let final :=
      match List.find? (fun a => a.adjustment_type == AdjType.breakeven) (h :: tl) with
      | some be => be
      | none => best
    let cand := final.new_stop_loss
    let new_sl : ℚ :=
      if side = Side.buy ∧ cand < sl then sl
      else if side = Side.sell ∧ cand > sl then sl
      else cand
    ⟨new_sl, final.adjustment_type,
      final.adjustment_type == AdjType.breakeven,
      final.trailing_distance, final.confidence, sl, |new_sl - sl|⟩

/-- Embeds `DynamicStopLossAdjustment.adjust_stop_loss`: run the four evaluations
and combine them with `_optimize_adjustment`. -/
def adjustStopLoss (already : Bool) (entry current sl : ℚ) (side : Side)
    (atr15 atr1h mean24 : ℚ) (ra : RegimeAnalysis) : FinalAdj :=
  optimizeAdjustment sl
    (evaluateBreakevenMove already entry current sl side)
    (evaluateTrailingStop entry current sl side atr15)
    (evaluateVolatilityAdjustment current sl side atr1h mean24)
    (evaluateRegimeAdjustment current sl side ra)
    side

/-! ## Guaranteed stop-loss execution (`app/trading/exit/guaranteed_sl.py`)

The exchange session is modelled by an oracle `SLExchangeEnv` giving the
outcome of each order the strategies may place (limit placement and fill
outcome, a single market order, the five split market orders, the three
parallel emergency market orders, the hedge order). -/

/-- The five strategies of `execution_strategies` (guaranteed_sl.py lines
189-195), in source order. -/
inductive SLStrategy
  | primary_limit
  | immediate_market
  | split_execution
  | emergency_close
  | fallback_hedge
deriving DecidableEq, Repr

/-- The `execution_strategies` list, in the order the source declares it. -/
def executionStrategies : List SLStrategy :=
  [SLStrategy.primary_limit, SLStrategy.immediate_market,
   SLStrategy.split_execution, SLStrategy.emergency_close,
   SLStrategy.fallback_hedge]

/-- What happens to the IOC limit order while `_place_limit_order` polls it. -/
inductive LimitOutcome
  | filled
  | cancelledOrRejected
  | timedOut
deriving DecidableEq, Repr

/-- Oracle for the exchange responses seen by one `execute_guaranteed_stop_loss`
call. -/
structure SLExchangeEnv where
  limit_place_ok : Bool
  limit_outcome : LimitOutcome
  market_ok : Bool
  split_market_ok : Nat → Bool
  emergency_market_ok : Nat → Bool
  hedge_ok : Bool

/-- Embeds `_place_limit_order`: success only when the order is accepted
(`retCode == 0`) and then observed `Filled` before the timeout; a
Cancelled/Rejected status or a poll timeout (after which the order is
cancelled) is a failure. -/
def placeLimitOrder (env : SLExchangeEnv) : Bool :=
  env.limit_place_ok && (env.limit_outcome == LimitOutcome.filled)

/-- Embeds `_place_market_order`: success iff the order is accepted. -/
def placeMarketOrder (ok : Bool) : Bool :=
  ok

/-- Executed quantity accumulated by `_execute_split_orders`: five market
orders, the first four of `total/5` each, the last of the remaining
`total - executed`; only accepted orders add to `executed_qty`. -/
def splitExecutedQty (ok : Nat → Bool) (total : ℚ) : ℚ :=
  List.foldl
    (fun ex i =>
      let qty := if i < 4 then total / 5 else total - ex
      if ok i then ex + qty else ex)
    0 (List.range 5)

/-- Embeds `_execute_split_orders`: success iff the executed fraction exceeds 80
percent.  `total_qty = 0` raises ZeroDivisionError on the success rate and is
caught as a failure. -/
def executeSplitOrders (env : SLExchangeEnv) (total : ℚ) : Bool :=
  if total = 0 then false
  else decide (splitExecutedQty env.split_market_ok total / total > 4/5)

/-- Embeds `_execute_emergency_close`: three parallel market orders, success iff any
one is accepted. -/
def executeEmergencyClose (env : SLExchangeEnv) : Bool :=
  List.any (List.range 3) env.emergency_market_ok

/-- Embeds `_execute_hedge_position`: an equal-size market order in the opposite
direction, success iff accepted. -/
def executeHedgePosition (env : SLExchangeEnv) : Bool :=
  env.hedge_ok

/-- Embeds `_execute_strategy` dispatch (guaranteed_sl.py lines 344-390). -/
def executeStrategy (env : SLExchangeEnv) (qty : ℚ) : SLStrategy → Bool
  | SLStrategy.primary_limit => placeLimitOrder env
  | SLStrategy.immediate_market => placeMarketOrder env.market_ok
  | SLStrategy.split_execution => executeSplitOrders env qty
  | SLStrategy.emergency_close => executeEmergencyClose env
  | SLStrategy.fallback_hedge => executeHedgePosition env

/-- The monitoring config fields that drive the cascade. -/
structure MonitoringConfig where
  side : Side
  position_size : ℚ
deriving DecidableEq, Repr

/-- The strategy loop of `execute_guaranteed_stop_loss` lines 197-215: try
each strategy in order, append its outcome to `backup_methods`, break at the
first success.  Returns the recorded attempts and the successful strategy,
if any. -/
def runStrategies (env : SLExchangeEnv) (qty : ℚ) :
    List SLStrategy → List (SLStrategy × Bool) × Option SLStrategy
  | [] => ([], none)
  | s :: rest =>
    if executeStrategy env qty s then ([(s, true)], some s)
    else
      let p := runStrategies env qty rest
      ((s, false) :: p.1, p.2)

/-- Result of `execute_guaranteed_stop_loss`. -/
structure ExecOutcome where
  execution_successful : Bool
  failsafe_used : Option SLStrategy
  backup_methods : List (SLStrategy × Bool)
  alert_sent : Bool
deriving DecidableEq, Repr

/-- Embeds `execute_guaranteed_stop_loss` (guaranteed_sl.py lines 152-261): when no
monitoring config exists the call returns an error without attempting
anything; otherwise the five strategies run in order and
`_send_execution_failure_alert` fires exactly when none succeeded. -/
def executeGuaranteedStopLoss (env : SLExchangeEnv)
    (config : Option MonitoringConfig) : ExecOutcome :=
  match config with
  | none => ⟨false, none, [], false⟩
  | some cfg =>
    let qty := |cfg.position_size|
    let p := runStrategies env qty executionStrategies
    ⟨(p.2).isSome, p.2, p.1, (p.2).isNone⟩

/-! ## Rapid profit system (`app/trading/scalping/rapid_profit_system.py`)

The `entry_time` of a position and `datetime.now()` are ambient; evaluation
functions receive the elapsed `hold_time` in seconds as a parameter. -/

/-- Embeds `RapidProfitTarget.trigger_type` values. -/
inductive TriggerType
  | PRICE
  | TIME
  | VOLUME
  | MOMENTUM
deriving DecidableEq, Repr

/-- The `RapidProfitTarget` dataclass.  The `conditions` dict is modelled by
its possible keys: `has_min_volume_cond` records whether `min_volume_ratio`
is present, `momentum_threshold` its optional value, `min_hold_time` the
value of `conditions.get` with default 0. -/
structure RapidProfitTarget where
  target_price : ℚ
  percentage : ℚ
  priority : ℕ
  trigger_type : TriggerType
  has_min_volume_cond : Bool
  momentum_threshold : Option ℚ
  min_hold_time : ℚ
  is_active : Bool
deriving DecidableEq, Repr

/-- One entry of `RapidProfitSystem.active_positions`.  `symbol` is absent
(`none`) for positions created by `setup_rapid_profit` and present for
imported external positions. -/
structure RapidPosition where
  symbol : Option String
  entry_price : ℚ
  position_size : ℚ
  direction : Direction
  expected_duration : ℚ
  confidence : ℚ
  current_profit : ℚ
  max_profit : ℚ
  profit_locked : ℚ
  remaining_size : ℚ
  unrealized_pnl : ℚ
  is_external : Bool
deriving DecidableEq, Repr

/-- Embeds `RapidProfitSystem._create_profit_targets`: three PRICE rungs with close
fractions 0.5/0.3/0.2 and priorities 1/2/3, followed by a TIME rung with
close fraction 0.8 and priority 0, appended last. -/
def createProfitTargets (entry : ℚ) (direction : Direction)
    (confidence expected_duration : ℚ) : List RapidProfitTarget :=
  let cm := 1/2 + confidence * (1/2)
  let a1 := 2/10 * cm
  let a2 := 3/10 * cm
  let a3 := 5/10 * cm
  let tm : ℚ :=
    if expected_duration ≤ 3 then 12/10
    else if expected_duration ≤ 5 then 1 else 8/10
  let mk := fun (tp pct : ℚ) (prio : ℕ) =>
    let tpm := tp * tm
    let price : ℚ :=
      if direction = Direction.BUY then entry * (1 + tpm/100)
      else entry * (1 - tpm/100)
    (⟨price, pct, prio, TriggerType.PRICE, true, some (3/10), 0, true⟩ :
      RapidProfitTarget)
  let tmin := min a1 (min a2 a3)
  let ttp := tmin * (7/10)
  let tprice : ℚ :=
    if direction = Direction.BUY then entry * (1 + ttp/100)
    else entry * (1 - ttp/100)
  [mk a1 (5/10) 1, mk a2 (3/10) 2, mk a3 (2/10) 3,
   ⟨tprice, 8/10, 0, TriggerType.TIME, false, none,
     expected_duration * 60 * (8/10), true⟩]

/-- The position record written by `setup_rapid_profit`. -/
def setupRapidPosition (entry size : ℚ) (direction : Direction)
    (expected_duration confidence : ℚ) : RapidPosition :=
  ⟨none, entry, size, direction, expected_duration, confidence,
    0, 0, 0, size, 0, false⟩

/-- Trigger test of one rung inside `_check_profit_targets` (lines 326-348):
PRICE rungs compare the price to the target and, when the corresponding
condition keys exist, additionally require positive volume and momentum above
the threshold; TIME rungs require the minimum hold time and positive
profit. -/
def rapidTargetTriggered (direction : Direction) (t : RapidProfitTarget)
    (current_price profit_percent current_volume market_momentum
     hold_time : ℚ) : Bool :=
  match t.trigger_type with
  | TriggerType.PRICE =>
    let base : Bool :=
      if direction = Direction.BUY then decide (current_price ≥ t.target_price)
      else decide (current_price ≤ t.target_price)
    let base :=
      if t.has_min_volume_cond then base && decide (current_volume > 0)
      else base
    (match t.momentum_threshold with
      | some thr => base && decide (market_momentum > thr)
      | none => base)
  | TriggerType.TIME =>
    decide (hold_time ≥ t.min_hold_time) && decide (profit_percent > 0)
  | _ => false

/-- The rung loop of `_check_profit_targets` (lines 322-367): iterate the
ladder in list order, skip inactive rungs, and on the first triggered rung
reduce `remaining_size` by `remaining_size * percentage`, add to
`profit_locked`, deactivate the rung, and return.  The returned option holds
the list index of the fired rung and its close fraction. -/
def checkTargetsLoop (pos : RapidPosition)
    (current_price profit_percent current_volume market_momentum
     hold_time : ℚ) :
    List RapidProfitTarget →
      List RapidProfitTarget × RapidPosition × Option (ℕ × ℚ)
  | [] => ([], pos, none)
  | t :: rest =>
    if t.is_active &&
        rapidTargetTriggered pos.direction t current_price profit_percent
          current_volume market_momentum hold_time then
      let profit_size := pos.remaining_size * t.percentage
      let pos2 := { pos with
        remaining_size := pos.remaining_size - profit_size,
        profit_locked := pos.profit_locked + profit_percent * t.percentage }
      ({ t with is_active := false } :: rest, pos2, some (0, t.percentage))
    else
      let r := checkTargetsLoop pos current_price profit_percent
        current_volume market_momentum hold_time rest
      (t :: r.1, r.2.1, (r.2.2).map (fun q => (q.1 + 1, q.2)))

/-- Embeds `_check_profit_targets` on a position and its ladder. -/
def checkProfitTargets (pos : RapidPosition) (targets : List RapidProfitTarget)
    (current_price profit_percent current_volume market_momentum
     hold_time : ℚ) :
    List RapidProfitTarget × RapidPosition × Option (ℕ × ℚ) :=
  checkTargetsLoop pos current_price profit_percent current_volume
    market_momentum hold_time targets

/-! ## Guaranteed take-profit execution
(`app/trading/exit/guaranteed_execution.py`)

`_execute_tp_immediately` is modelled by an oracle `execOk` giving, per level
index, whether any of its (parallel, retried) order placements succeeds; only
a success sets the `executed` flag of the level. -/

/-- One entry of a position's `tp_levels` list. -/
structure TpLevel where
  price : ℚ
  percentage : ℚ
  executed : Bool
deriving DecidableEq, Repr

/-- Embeds `GuaranteedExecutionSystem._check_tp_hit`. -/
def checkTpHit (side : Direction) (tp_price current : ℚ) : Bool :=
  if side = Direction.BUY then decide (current ≥ tp_price)
  else decide (current ≤ tp_price)

/-- The level loop of `_process_price_update` lines 201-208: levels already
marked `executed` are skipped; a non-executed level whose price is hit enters
`_execute_tp_immediately`, which marks it executed exactly when the order
placement succeeds.  `base` is the index of the first level of `ls`; the
second component collects the indices of the levels for which an execution
was attempted (orders placed). -/
def processTpLevels (side : Direction) (price : ℚ) (execOk : ℕ → Bool) :
    List TpLevel → ℕ → List TpLevel × List ℕ
  | [], _ => ([], [])
  | l :: rest, base =>
    let r := processTpLevels side price execOk rest (base + 1)
    if l.executed then (l :: r.1, r.2)
    else if checkTpHit side l.price price then
      ({ l with executed := execOk base } :: r.1, base :: r.2)
    else (l :: r.1, r.2)

/-- Embeds `_process_price_update`: a non-positive `lastPrice` returns without
touching anything. -/
def processPriceUpdate (side : Direction) (ls : List TpLevel) (price : ℚ)
    (execOk : ℕ → Bool) : List TpLevel × List ℕ :=
  if price ≤ 0 then (ls, [])
  else processTpLevels side price execOk ls 0

/-! ## Aggressive stop system (`app/trading/scalping/aggressive_stop_system.py`) -/

/-- Trigger-condition strings of a `StopLossLevel`. -/
inductive StopCond
  | PRICE
  | DRAWDOWN
  | EMERGENCY
  | TIME
  | MOMENTUM
deriving DecidableEq, Repr

/-- The `StopLossLevel` dataclass. -/
structure StopLossLevel where
  level_name : String
  stop_price : ℚ
  trigger_conditions : List StopCond
  priority : ℕ
  is_active : Bool
deriving DecidableEq, Repr

/-- Loop skip test of `_check_normal_stops` line 438: a rung takes part only
when active and priced. -/
def stopEligible (l : StopLossLevel) : Bool :=
  l.is_active && decide (l.stop_price ≠ 0)

/-- Trigger test of `_check_normal_stops` lines 443-451. -/
def stopTriggered (direction : Direction) (l : StopLossLevel)
    (current_price current_drawdown max_loss_percent : ℚ) : Bool :=
  let t1 : Bool :=
    if StopCond.PRICE ∈ l.trigger_conditions then
      if direction = Direction.BUY then decide (current_price ≤ l.stop_price)
      else decide (current_price ≥ l.stop_price)
    else false
  if StopCond.DRAWDOWN ∈ l.trigger_conditions then
    t1 || decide (current_drawdown ≥ max_loss_percent)
  else t1

/-- Priority of the rung at index `i` (0 past the end). -/
def prioOf (levels : List StopLossLevel) (i : ℕ) : ℕ :=
  ((levels[i]?).map (fun l => l.priority)).getD 0

/-- Whether the rung at index `i` passes the skip test and triggers. -/
def levelCheck (direction : Direction) (cp cd mlp : ℚ)
    (levels : List StopLossLevel) (i : ℕ) : Bool :=
  match levels[i]? with
  | some l => stopEligible l && stopTriggered direction l cp cd mlp
  | none => false

/-- Embeds `sorted(stop_levels, key=lambda x: x.priority)` as a stable sort of the
rung indices: Python `sorted` is stable, and so is `List.insertionSort` with
a non-strict key comparison. -/
def sortedOrder (levels : List StopLossLevel) : List ℕ :=
  List.insertionSort (fun i j => prioOf levels i ≤ prioOf levels j)
    (List.range levels.length)

/-- Embeds `_check_normal_stops` (lines 423-471): walk the rungs in ascending
priority order, skip inactive or unpriced rungs, deactivate the first
triggered rung in place and return; the rung object stays in the stored
list. -/
def checkNormalStops (levels : List StopLossLevel) (direction : Direction)
    (cp cd mlp : ℚ) : List StopLossLevel × Option ℕ :=
  match List.find? (levelCheck direction cp cd mlp levels)
      (sortedOrder levels) with
  | some i =>
    (match levels[i]? with
      | some l => (levels.set i { l with is_active := false }, some i)
      | none => (levels, some i))
  | none => (levels, none)

/-! ## Close-fraction bookkeeping for the rapid profit ladder (C8) -/

/-- Sum of `percentage` over the still-active rungs of a ladder. -/
def activeCloseSum : List RapidProfitTarget → ℚ
  | [] => 0
  | t :: ts => (if t.is_active = true then t.percentage else 0) + activeCloseSum ts

/-- Sum of `percentage` over the still-active PRICE rungs of a ladder. -/
def activePriceCloseSum : List RapidProfitTarget → ℚ
  | [] => 0
  | t :: ts =>
    (if t.is_active = true ∧ t.trigger_type = TriggerType.PRICE
      then t.percentage else 0) + activePriceCloseSum ts

/-- Inputs of one ladder evaluation driven by `update_profit_status`. -/
structure RapidInputs where
  current_price : ℚ
  profit_percent : ℚ
  current_volume : ℚ
  market_momentum : ℚ
  hold_time : ℚ
deriving DecidableEq, Repr

/-- Iterated ladder evaluation: the position and ladder after a sequence of
evaluation cycles. -/
def runProfitChecks :
    RapidPosition × List RapidProfitTarget → List RapidInputs →
      RapidPosition × List RapidProfitTarget
  | st, [] => st
  | (pos, ts), inp :: rest =>
    let r := checkProfitTargets pos ts inp.current_price inp.profit_percent
      inp.current_volume inp.market_momentum inp.hold_time
    runProfitChecks (r.2.1, r.1) rest

/-- Evaluation only ever clears `is_active` flags of existing rungs. -/
def TargetsEvolve (ts ts2 : List RapidProfitTarget) : Prop :=
  List.Forall₂ (fun a b => b = a ∨ b = { a with is_active := false }) ts ts2

/-! ## Trading mode manager (`app/trading/modes/trading_mode_manager.py`) -/

/-- The `ModeConfig` dataclass. -/
structure ModeConfig where
  name : String
  enabled : Bool
  max_positions : ℕ
  position_size_percent : ℚ
  min_interval_seconds : ℚ
  max_daily_trades : ℕ
  risk_level : ℚ
deriving DecidableEq, Repr

/-- Per-mode manager state used by `can_open_position`: the mode's config,
`len(active_positions[mode])`, `daily_trades[mode]`, `last_trade_time[mode]`
(a timestamp), and `last_reset_date` (a date ordinal). -/
structure ModeState where
  config : ModeConfig
  active_position_count : ℕ
  daily_trades : ℕ
  last_trade_time : Option ℚ
  last_reset_date : ℤ
deriving DecidableEq, Repr

/-- The rejection reason of `can_open_position`, one constructor per reason
string of the source. -/
inductive CanOpenReason
  | modeDisabled
  | maxPositionsReached
  | dailyLimitReached
  | intervalTooShort
  | allowed
deriving DecidableEq, Repr

/-- Result dict of `can_open_position`. -/
structure CanOpenResult where
  can_open : Bool
  reason : CanOpenReason
deriving DecidableEq, Repr

/-- Embeds `_reset_daily_counters`: lazily zero the daily counter when the
wall-clock date rolled over. -/
def resetDailyCounters (st : ModeState) (today : ℤ) : ModeState :=
  if today ≠ st.last_reset_date then
    { st with daily_trades := 0, last_reset_date := today }
  else st

/-- Embeds `TradingModeManager.can_open_position` (lines 123-187): reset daily
counters, then check mode enabled, position cap, daily cap and minimum
interval in that order, returning the reason of the first failing rule. -/
def canOpenPosition (st : ModeState) (today : ℤ) (now : ℚ) : CanOpenResult :=
  let st2 := resetDailyCounters st today
  let config := st2.config
  if config.enabled = false then ⟨false, CanOpenReason.modeDisabled⟩
  else if st2.active_position_count ≥ config.max_positions then
    ⟨false, CanOpenReason.maxPositionsReached⟩
  else if st2.daily_trades ≥ config.max_daily_trades then
    ⟨false, CanOpenReason.dailyLimitReached⟩
  else
    match st2.last_trade_time with
    | some t =>
      if now - t < config.min_interval_seconds then
        ⟨false, CanOpenReason.intervalTooShort⟩
      else ⟨true, CanOpenReason.allowed⟩
    | none => ⟨true, CanOpenReason.allowed⟩

/-! ## Association-list model of the per-position dictionaries -/

/-- Python dict assignment `d[k] = v`: replace in place or append. -/
def alistSet {α : Type} (k : String) (v : α) :
    List (String × α) → List (String × α)
  | [] => [(k, v)]
  | (k2, v2) :: rest =>
    if k2 = k then (k2, v) :: rest else (k2, v2) :: alistSet k v rest

/-- Python `del d[k]` guarded by `if k in d`. -/
def alistErase {α : Type} (k : String) (l : List (String × α)) :
    List (String × α) :=
  List.filter (fun p => !(p.1 == k)) l

/-- Python `d.get(k)`. -/
def alistGet {α : Type} (l : List (String × α)) (k : String) : Option α :=
  (List.find? (fun p => p.1 == k) l).map (fun p => p.2)

/-- Python `d[k] = f(d[k])`-style in-place update of one entry. -/
def alistModify {α : Type} (k : String) (f : α → α)
    (l : List (String × α)) : List (String × α) :=
  List.map (fun p => if p.1 = k then (p.1, f p.2) else p) l

/-! ## Remaining per-system state (dataclasses from the source) -/

/-- The `TrailingConfig` dataclass of rapid_profit_system.py. -/
structure TrailingConfig where
  activation_profit : ℚ
  trail_distance : ℚ
  max_trail_distance : ℚ
  acceleration_factor : ℚ
  time_decay_factor : ℚ
deriving DecidableEq, Repr

/-- The dict state of `RapidProfitSystem` (`__init__` lines 52-55). -/
structure RapidState where
  active_positions : List (String × RapidPosition)
  profit_targets : List (String × List RapidProfitTarget)
  trailing_configs : List (String × TrailingConfig)
deriving DecidableEq, Repr

/-- The `AggressiveStopConfig` dataclass. -/
structure AggressiveStopConfig where
  initial_stop_distance : ℚ
  max_loss_percent : ℚ
  time_stop_seconds : ℚ
  momentum_stop_threshold : ℚ
  volume_stop_multiplier : ℚ
  emergency_stop_percent : ℚ
deriving DecidableEq, Repr

/-- The `RiskMetrics` dataclass. -/
structure RiskMetrics where
  current_drawdown : ℚ
  max_drawdown : ℚ
  momentum_deterioration : ℚ
  volume_decline : ℚ
  time_exposure : ℚ
  market_stress_level : ℚ
deriving DecidableEq, Repr

/-- The dict state of `AggressiveStopSystem`: its `__init__` (lines 49-66)
defines `default_config`, `active_stops`, `risk_metrics`, `stop_configs` and
`emergency_mode` (plus the lazily created `_position_start_times`); it never
defines an `active_positions` attribute. -/
structure AggrState where
  active_stops : List (String × List StopLossLevel)
  risk_metrics : List (String × RiskMetrics)
  stop_configs : List (String × AggressiveStopConfig)
  emergency_mode : List (String × Bool)
  position_start_times : List (String × ℚ)
deriving DecidableEq, Repr

/-- Instance attributes of `AggressiveStopSystem` that the rest of the code
refers to.  `hasAttr`-style lookup table built from `__init__`. -/
inductive AggrAttr
  | default_config
  | active_stops
  | risk_metrics
  | stop_configs
  | emergency_mode
  | active_positions
deriving DecidableEq, Repr

/-- Which of those attributes exist on the `aggressive_stop_system` instance:
all but `active_positions`, which no code path ever assigns (reading it, as
position_sync.py line 294 and portfolio_manager.py line 387 do, raises
AttributeError). -/
def aggrHasAttr : AggrAttr → Bool
  | AggrAttr.active_positions => false
  | _ => true

/-- The position dict stored by `ConservativeProfitSystem.setup` (lines
91-103). -/
structure ConsProfitPosition where
  symbol : String
  entry_price : ℚ
  position_size : ℚ
  direction : Direction
  stop_loss : ℚ
  entry_time : ℚ
  confidence : ℚ
  current_profit : ℚ
  max_profit : ℚ
  profit_locked : ℚ
  remaining_size : ℚ
deriving DecidableEq, Repr

/-- The `ConservativeProfitTarget` dataclass; `conditions` is a dict of
numeric condition values. -/
structure ConsProfitTarget where
  target_price : ℚ
  percentage : ℚ
  priority : ℕ
  trigger_type : TriggerType
  conditions : List (String × ℚ)
  description : String
deriving DecidableEq, Repr

/-- The `ProfitLockConfig` dataclass. -/
structure ProfitLockConfig where
  lock_profit_threshold : ℚ
  lock_percentage : ℚ
  trailing_distance : ℚ
  min_profit_to_lock : ℚ
deriving DecidableEq, Repr

/-- The trailing-stop dict kept per position by the conservative profit
system. -/
structure ConsTrailingInfo where
  active : Bool
  stop_price : ℚ
  locked_profit : ℚ
deriving DecidableEq, Repr

/-- The dict state of `ConservativeProfitSystem` (`__init__` lines 47-54). -/
structure ConsProfitState where
  active_positions : List (String × ConsProfitPosition)
  profit_targets : List (String × List ConsProfitTarget)
  profit_configs : List (String × ProfitLockConfig)
  trailing_stops : List (String × ConsTrailingInfo)
  highest_profits : List (String × ℚ)
deriving DecidableEq, Repr

/-- The `ConservativeStopLevel` dataclass. -/
structure ConsStopLevel where
  level_name : String
  stop_price : ℚ
  trigger_conditions : List StopCond
  priority : ℕ
  is_active : Bool
  description : String
deriving DecidableEq, Repr

/-- The `ConservativeStopConfig` dataclass. -/
structure ConsStopConfig where
  initial_stop_percent : ℚ
  max_loss_percent : ℚ
  time_stop_hours : ℚ
  breakeven_move_percent : ℚ
  partial_stop_percent : ℚ
deriving DecidableEq, Repr

/-- The position dict stored by `ConservativeStopSystem.setup` (lines
94-102). -/
structure ConsStopPosition where
  symbol : String
  entry_price : ℚ
  direction : Direction
  position_size : ℚ
  entry_time : ℚ
  confidence : ℚ
  initial_stop_loss : ℚ
deriving DecidableEq, Repr

/-- The dict state of `ConservativeStopSystem` (`__init__` lines 48-57). -/
structure ConsStopState where
  active_stops : List (String × List ConsStopLevel)
  stop_configs : List (String × ConsStopConfig)
  active_positions : List (String × ConsStopPosition)
  breakeven_moved : List (String × Bool)
deriving DecidableEq, Repr

/-- A position dict appended to a `trading_mode_manager.active_positions`
list (by `register_position` or by the external import). -/
structure ModePositionInfo where
  symbol : String
  direction : Direction
  entry_price : ℚ
  quantity : ℚ
  position_id : String
  signal_confidence : ℚ
  expected_duration : ℚ
  mode : String
  is_external : Bool
deriving DecidableEq, Repr

/-- A Python value as it can occur in a mode position list or be compared by
`in` / `remove`: either a string (a position id) or a position dict.  Python
`==` between a string and a dict is False. -/
inductive PyVal
  | str : String → PyVal
  | posDict : ModePositionInfo → PyVal
deriving DecidableEq, Repr

/-- Python `==` on those values. -/
def pyEq : PyVal → PyVal → Bool
  | PyVal.str a, PyVal.str b => a == b
  | PyVal.posDict a, PyVal.posDict b => a == b
  | _, _ => false

/-- Python `v in list`. -/
def pyContains (l : List PyVal) (v : PyVal) : Bool :=
  List.any l (pyEq v)

/-- Python `list.remove(v)`: drop the first element equal to `v`. -/
def pyRemove (v : PyVal) : List PyVal → List PyVal
  | [] => []
  | x :: rest => if pyEq v x then rest else x :: pyRemove v rest

/-- A `PortfolioPosition` status. -/
inductive PosStatus
  | OPEN
  | PARTIAL
  | CLOSED
deriving DecidableEq, Repr

/-- The `PortfolioPosition` dataclass of portfolio_manager.py. -/
structure PortfolioPosition where
  symbol : String
  side : Direction
  entry_price : ℚ
  current_price : ℚ
  quantity : ℚ
  stop_loss : ℚ
  take_profit : List ℚ
  entry_time : ℚ
  unrealized_pnl : ℚ
  realized_pnl : ℚ
  status : PosStatus
deriving DecidableEq, Repr

/-- One value of the `all_positions` cache of the portfolio manager: a
position dict of one of the two profit systems, tagged with its mode. -/
inductive PMCachedPosition
  | scalping : RapidPosition → PMCachedPosition
  | conservative : ConsProfitPosition → PMCachedPosition
deriving DecidableEq, Repr

/-- The mutable state of `PortfolioManager` (`__init__` lines 46-54). -/
structure PMState where
  positions : List (String × List PortfolioPosition)
  active_symbols : List String
  all_positions : List (String × PMCachedPosition)
  total_portfolio_value : ℚ
  total_risk_exposure : ℚ
  last_rebalance : ℚ
deriving DecidableEq, Repr

/-- The combined state of the global system instances touched by the
position-sync service and by `reset_portfolio`. -/
structure SystemState where
  rapid : RapidState
  aggr : AggrState
  consProfit : ConsProfitState
  consStop : ConsStopState
  modeScalping : List PyVal
  modeConservative : List PyVal
  pm : PMState
deriving DecidableEq, Repr

/-! ## Position sync service (`app/services/position_sync.py`) -/

/-- The exchange-reported position row used by the sync service. -/
structure BybitPos where
  symbol : String
  side : Side
  size : ℚ
  avgPrice : ℚ
  markPrice : ℚ
  unrealisedPnl : ℚ
deriving DecidableEq, Repr

/-- Embeds `RapidProfitSystem.cleanup_position`. -/
def rapidCleanup (pid : String) (st : RapidState) : RapidState :=
  ⟨alistErase pid st.active_positions,
   alistErase pid st.profit_targets,
   alistErase pid st.trailing_configs⟩

/-- Embeds `AggressiveStopSystem.cleanup_position`. -/
def aggrCleanup (pid : String) (st : AggrState) : AggrState :=
  ⟨alistErase pid st.active_stops,
   alistErase pid st.risk_metrics,
   alistErase pid st.stop_configs,
   alistErase pid st.emergency_mode,
   alistErase pid st.position_start_times⟩

/-- Embeds `ConservativeProfitSystem.cleanup_position`. -/
def consProfitCleanup (pid : String) (st : ConsProfitState) : ConsProfitState :=
  ⟨alistErase pid st.active_positions,
   alistErase pid st.profit_targets,
   alistErase pid st.profit_configs,
   alistErase pid st.trailing_stops,
   alistErase pid st.highest_profits⟩

/-- Embeds `ConservativeStopSystem.cleanup_position`. -/
def consStopCleanup (pid : String) (st : ConsStopState) : ConsStopState :=
  ⟨alistErase pid st.active_stops,
   alistErase pid st.stop_configs,
   alistErase pid st.active_positions,
   alistErase pid st.breakeven_moved⟩

/-- The mode-list removal of `PositionSyncService._cleanup_position` lines
174-177: `if position_id in trading_mode_manager.active_positions[mode]`
compares the id string against the stored position dicts with Python `==`
(which is False between a string and a dict), so the removal runs only when
the string itself is an element. -/
def modeListCleanup (pid : String) (l : List PyVal) : List PyVal :=
  if pyContains l (PyVal.str pid) then pyRemove (PyVal.str pid) l else l

/-- Embeds `PositionSyncService._cleanup_position` (lines 159-182). -/
def cleanupPosition (pid : String) (st : SystemState) : SystemState :=
  { st with
    rapid := rapidCleanup pid st.rapid,
    aggr := aggrCleanup pid st.aggr,
    consProfit := consProfitCleanup pid st.consProfit,
    consStop := consStopCleanup pid st.consStop,
    modeScalping := modeListCleanup pid st.modeScalping,
    modeConservative := modeListCleanup pid st.modeConservative }

/-- The view of one local position taken by `sync_positions` and
`_update_position_info`: `pos.get('symbol')`, `pos.get('position_size', 0)`,
`pos.get('entry_price', 0)`, `pos.get('direction', 'BUY')`. -/
structure LocalPosView where
  symbol : Option String
  position_size : ℚ
  entry_price : ℚ
  direction : Direction
deriving DecidableEq, Repr

/-- Embeds `_get_local_positions`: merge the rapid and the conservative profit
positions into one id-keyed dict (conservative entries override duplicate
ids, as the second dict write wins). -/
def getLocalPositions (st : SystemState) : List (String × LocalPosView) :=
  let fromRapid := List.map
    (fun p => (p.1, (⟨(p.2).symbol, (p.2).position_size, (p.2).entry_price,
      (p.2).direction⟩ : LocalPosView))) st.rapid.active_positions
  List.foldl
    (fun acc p => alistSet p.1
      (⟨some (p.2).symbol, (p.2).position_size, (p.2).entry_price,
        (p.2).direction⟩ : LocalPosView) acc)
    fromRapid st.consProfit.active_positions

/-- Embeds `PositionSyncService._update_position_info` (lines 111-157): correct the
size on drift beyond 0.0001, the entry price on drift beyond 0.01, then
refresh profit and unrealized PnL.  The profit refresh divides by the rapid
entry price; a zero entry price raises ZeroDivisionError, caught by the
`except` handler after the earlier writes already happened. -/
def updatePositionInfo (pid : String) (lp : LocalPosView) (bp : BybitPos)
    (st : SystemState) : SystemState :=
  let sizeFix := fun (p : RapidPosition) =>
    { p with position_size := bp.size, remaining_size := bp.size }
  let sizeFixCons := fun (p : ConsProfitPosition) =>
    { p with position_size := bp.size, remaining_size := bp.size }
  let st1 :=
    if |bp.size - lp.position_size| > 1/10000 then
      let rapidA := { st.rapid with active_positions := alistModify pid sizeFix st.rapid.active_positions }
      let consA := { st.consProfit with active_positions := alistModify pid sizeFixCons st.consProfit.active_positions }
      { st with rapid := rapidA, consProfit := consA }
    else st
  let st2 :=
    if bp.avgPrice > 0 ∧ |bp.avgPrice - lp.entry_price| > 1/100 then
      let priceFix := fun (p : RapidPosition) => { p with entry_price := bp.avgPrice }
      let rapidB := { st1.rapid with active_positions := alistModify pid priceFix st1.rapid.active_positions }
      { st1 with rapid := rapidB }
    else st1
  if bp.markPrice > 0 then
    match alistGet st2.rapid.active_positions pid with
    | some p =>
      if p.entry_price = 0 then st2
      else
        let profit_percent : ℚ :=
          if lp.direction = Direction.BUY then
            (bp.markPrice - p.entry_price) / p.entry_price * 100
          else (p.entry_price - bp.markPrice) / p.entry_price * 100
        let pnlFix := fun (q : RapidPosition) =>
          { q with current_profit := profit_percent, unrealized_pnl := bp.unrealisedPnl }
        let rapidC := { st2.rapid with active_positions := alistModify pid pnlFix st2.rapid.active_positions }
        { st2 with rapid := rapidC }
    | none => st2
  else st2

/-- Embeds `PositionSyncService._register_external_position` (lines 206-336).  The
try block registers the position and its default profit ladder in the rapid
profit system, then reads `aggressive_stop_system.active_positions` (line
294) — an attribute that does not exist — so the AttributeError lands in the
`except` handler at line 335 and the stop-level registration (line 306) and
the mode-manager registration (line 331) never run.  The translated
continuation is kept in the dead branch of the attribute test. -/
def registerExternalPosition (pid : String) (sym : String) (bp : BybitPos)
    (st : SystemState) : SystemState :=
  if bp.size ≤ 0 ∨ bp.avgPrice ≤ 0 then st
  else
    let direction :=
      if bp.side = Side.buy then Direction.BUY else Direction.SELL
    let profit_percent : ℚ :=
      if direction = Direction.BUY then
        (bp.markPrice - bp.avgPrice) / bp.avgPrice * 100
      else (bp.avgPrice - bp.markPrice) / bp.avgPrice * 100
    let rapidPos : RapidPosition :=
      ⟨some sym, bp.avgPrice, bp.size, direction, 10, 1/2, profit_percent,
        max 0 profit_percent, 0, bp.size, bp.unrealisedPnl, true⟩
    let tp1 : ℚ :=
      if direction = Direction.BUY then bp.avgPrice * (1002/1000)
      else bp.avgPrice * (998/1000)
    let tp2 : ℚ :=
      if direction = Direction.BUY then bp.avgPrice * (1003/1000)
      else bp.avgPrice * (997/1000)
    let tp3 : ℚ :=
      if direction = Direction.BUY then bp.avgPrice * (1005/1000)
      else bp.avgPrice * (995/1000)
    let sl : ℚ :=
      if direction = Direction.BUY then bp.avgPrice * (998/1000)
      else bp.avgPrice * (1002/1000)
    let targets : List RapidProfitTarget :=
      [⟨tp1, 1/2, 1, TriggerType.PRICE, false, none, 0, true⟩,
       ⟨tp2, 3/10, 2, TriggerType.PRICE, false, none, 0, true⟩,
       ⟨tp3, 1/5, 3, TriggerType.PRICE, false, none, 0, true⟩]
    let rapid2 := { st.rapid with active_positions := alistSet pid rapidPos st.rapid.active_positions, profit_targets := alistSet pid targets st.rapid.profit_targets }
    let st1 := { st with rapid := rapid2 }
    if aggrHasAttr AggrAttr.active_positions = true then
      let stopLevel : StopLossLevel :=
        ⟨"初期ストップ", sl, [StopCond.PRICE], 1, true⟩
      let modeInfo : ModePositionInfo :=
        ⟨sym, direction, bp.avgPrice, bp.size, pid, 1/2, 10, "scalping", true⟩
      let aggr2 := { st1.aggr with active_stops := alistSet pid [stopLevel] st1.aggr.active_stops }
      let st2 := { st1 with aggr := aggr2 }
      if List.any st2.modeScalping
          (fun v => match v with
            | PyVal.posDict m => m.position_id == pid
            | PyVal.str _ => false) then st2
      else { st2 with modeScalping := st2.modeScalping ++ [PyVal.posDict modeInfo] }
    else st1

/-- Embeds `PositionSyncService.sync_positions` (lines 55-94): snapshot the local
positions, then for each one either correct drift (symbol still reported) or
clean it up (symbol absent — the exchange is the source of truth), and
finally import every reported symbol with no matching local position as an
external position.  `newPid` supplies the generated
`external_{symbol}_{timestamp}` id. -/
def syncPositions (bybit : List BybitPos) (newPid : String → String)
    (st : SystemState) : SystemState :=
  let bybitDict : List (String × BybitPos) :=
    List.foldl (fun acc p => alistSet p.symbol p acc) [] bybit
  let locals := getLocalPositions st
  let st1 := List.foldl
    (fun acc pl =>
      match (pl.2).symbol with
      | some sym =>
        match alistGet bybitDict sym with
        | some bp => updatePositionInfo pl.1 pl.2 bp acc
        | none => cleanupPosition pl.1 acc
      | none => cleanupPosition pl.1 acc)
    st locals
  List.foldl
    (fun acc sp =>
      if List.any locals (fun p => (p.2).symbol == some sp.1) then acc
      else registerExternalPosition (newPid sp.1) sp.1 sp.2 acc)
    st1 bybitDict

/-- Python exception kinds raised by the modelled code. -/
inductive PyError
  | attributeError
deriving DecidableEq, Repr

/-- Embeds `PortfolioManager.reset_portfolio` (lines 365-405): clear the portfolio
manager's own dictionaries, clear the rapid profit system's
`active_positions` and `profit_targets`, then read
`aggressive_stop_system.active_positions` (line 387) — an attribute that
does not exist — raising AttributeError.  The method has no handler, so the
clears of the conservative systems (lines 391-398) and of the mode-manager
lists (lines 402-403), kept in the dead branch of the attribute test, never
run. -/
def resetPortfolio (now : ℚ) (st : SystemState) : SystemState × Option PyError :=
  let pm2 : PMState := ⟨[], [], [], 0, 0, now⟩
  let rapid2 := { st.rapid with active_positions := [], profit_targets := [] }
  let st1 := { st with pm := pm2, rapid := rapid2 }
  if aggrHasAttr AggrAttr.active_positions = true then
    let aggr2 := { st1.aggr with active_stops := ([] : List (String × List StopLossLevel)) }
    let consProfit2 := { st1.consProfit with active_positions := ([] : List (String × ConsProfitPosition)), profit_targets := ([] : List (String × List ConsProfitTarget)) }
    let consStop2 := { st1.consStop with active_positions := ([] : List (String × ConsStopPosition)), active_stops := ([] : List (String × List ConsStopLevel)) }
    let st2 := { st1 with aggr := aggr2, consProfit := consProfit2, consStop := consStop2, modeScalping := [], modeConservative := [] }
    (st2, none)
  else (st1, some PyError.attributeError)

/-! ## Theorems -/

/-! ### Monotonicity of the final safety check -/

/-- Helper: on a Buy position `_optimize_adjustment` never returns a stop
below the current one. -/
theorem optimize_buy_ge (sl : ℚ) (b t v r : AdjEval) :
    sl ≤ (optimizeAdjustment sl b t v r Side.buy).new_stop_loss := by
  unfold optimizeAdjustment
  cases hl : List.filter (fun a => a.should_adjust = true) [b, t, v, r] with
  | nil => simp [noAdjustmentResult]
  | cons h tl =>
    simp only
    split_ifs with h1 h2
    · exact le_refl sl
    · exact le_refl sl
    · simp only [eq_self_iff_true, true_and, not_lt] at h1
      exact h1

/-- Helper: on a Sell position `_optimize_adjustment` never returns a stop
above the current one. -/
theorem optimize_sell_le (sl : ℚ) (b t v r : AdjEval) :
    (optimizeAdjustment sl b t v r Side.sell).new_stop_loss ≤ sl := by
  unfold optimizeAdjustment
  cases hl : List.filter (fun a => a.should_adjust = true) [b, t, v, r] with
  | nil => simp [noAdjustmentResult]
  | cons h tl =>
    simp only
    split_ifs <;>
      first
      | exact le_refl sl
      | (rename_i hc
         exact le_of_not_lt fun hlt => hc ⟨trivial, hlt⟩)

/-- C3: every call to `adjust_stop_loss` on a Buy position returns a
`new_stop_loss` that is at least the current stop, and on a Sell position at
most the current stop: no breakeven, trailing, volatility or regime
adjustment ever moves the stop in the unfavorable direction. -/
theorem adjust_stop_loss_monotone (already : Bool) (entry current sl : ℚ)
    (side : Side) (atr15 atr1h mean24 : ℚ) (ra : RegimeAnalysis) :
    (side = Side.buy →
      sl ≤ (adjustStopLoss already entry current sl side atr15 atr1h mean24 ra).new_stop_loss) ∧
    (side = Side.sell →
      (adjustStopLoss already entry current sl side atr15 atr1h mean24 ra).new_stop_loss ≤ sl) := by
  constructor
  · intro hs
    subst hs
    exact optimize_buy_ge sl _ _ _ _
  · intro hs
    subst hs
    exact optimize_sell_le sl _ _ _ _

/-- Witness for C3 at a concrete input. -/
theorem adjust_stop_loss_monotone_witness :
    98 ≤ (adjustStopLoss false 100 (508/5) 98 Side.buy 1 1 1
      ⟨MarketRegime.RANGE, 1/2⟩).new_stop_loss :=
  (adjust_stop_loss_monotone false 100 (508/5) 98 Side.buy 1 1 1
    ⟨MarketRegime.RANGE, 1/2⟩).1 rfl

/-! ### Scenario B: breakeven fires at 1.6 percent, trailing not active -/

/-- Helper: concrete breakeven evaluation for entry 100, price 101.6,
stop 98, long. -/
theorem breakeven_eval_scenario :
    evaluateBreakevenMove false 100 (508/5) 98 Side.buy
      = ⟨true, 1001/10, AdjType.breakeven, 95/100, 0⟩ := by
  norm_num [evaluateBreakevenMove]

/-- Helper: concrete trailing evaluation for entry 100, price 101.6, stop 98,
long: the 1.6 percent move is below the 2 percent activation, so no trailing
adjustment is requested, whatever the ATR. -/
theorem trailing_eval_scenario (atr15 : ℚ) :
    evaluateTrailingStop 100 (508/5) 98 Side.buy atr15
      = ⟨false, 98, AdjType.trailing, 0, atr15 * 2⟩ := by
  have habs : |(508:ℚ)/5 - 100| = 8/5 := by
    rw [show (508:ℚ)/5 - 100 = 8/5 by norm_num]
    exact abs_of_pos (by norm_num)
  simp only [evaluateTrailingStop, habs]
  norm_num

/-- C9: for a long position with entry 100 and stop 98, breakeven not yet
triggered, at price 101.6 (a 1.6 percent move, at or above the 1.5 percent
breakeven threshold) `adjust_stop_loss` selects the breakeven adjustment with
new stop 100.1 = entry plus the 0.1 percent fee buffer, for every market-data
input; trailing is not the selected adjustment because 1.6 percent is below
the 2 percent trailing activation. -/
theorem adjust_stop_loss_breakeven_scenario (atr15 atr1h mean24 : ℚ)
    (ra : RegimeAnalysis) :
    (adjustStopLoss false 100 (508/5) 98 Side.buy atr15 atr1h mean24 ra).new_stop_loss
        = 1001/10 ∧
    (adjustStopLoss false 100 (508/5) 98 Side.buy atr15 atr1h mean24 ra).adjustment_type
        = AdjType.breakeven ∧
    (evaluateTrailingStop 100 (508/5) 98 Side.buy atr15).should_adjust = false := by
  have hmain : adjustStopLoss false 100 (508/5) 98 Side.buy atr15 atr1h mean24 ra
      = ⟨1001/10, AdjType.breakeven, true, 0, 95/100, 98, 21/10⟩ := by
    unfold adjustStopLoss
    rw [breakeven_eval_scenario, trailing_eval_scenario]
    simp only [optimizeAdjustment, evaluateRegimeAdjustment, List.filter_cons]
    have h1 : ¬ (Side.buy = Side.sell) := by simp
    have h2 : |(1001:ℚ)/10 - 98| = 21/10 := by
      rw [show (1001:ℚ)/10 - 98 = 21/10 by norm_num]
      exact abs_of_pos (by norm_num)
    norm_num [h1, h2]
  refine ⟨?_, ?_, ?_⟩
  · rw [hmain]
  · rw [hmain]
  · rw [trailing_eval_scenario]

/-- Helper: the strategy loop tries the failing prefix in order, stops at the
first success, and reports that strategy. -/
theorem runStrategies_spec (env : SLExchangeEnv) (qty : ℚ)
    (l : List SLStrategy) :
    runStrategies env qty l =
      ((List.takeWhile (fun s => ! executeStrategy env qty s) l).map
          (fun s => (s, false)) ++
        (match List.find? (fun s => executeStrategy env qty s) l with
          | some s => [(s, true)]
          | none => []),
        List.find? (fun s => executeStrategy env qty s) l) := by
  induction l with
  | nil => simp [runStrategies]
  | cons s rest ih =>
    by_cases hs : executeStrategy env qty s = true
    · simp [runStrategies, hs, List.takeWhile_cons, List.find?_cons]
    · simp only [Bool.not_eq_true] at hs
      simp [runStrategies, hs, List.takeWhile_cons, List.find?_cons, ih]

/-- C1: for a triggered position, `execute_guaranteed_stop_loss` attempts the
five exit strategies in exactly the order limit order, market order, split
execution (5 smaller market orders), emergency parallel market orders, hedge;
each strategy runs only after every earlier one failed, the cascade stops at
the first success (recorded as `failsafe_used`), and the critical
execution-failure alert fires exactly when all five strategies fail. -/
theorem guaranteed_sl_strategy_cascade (env : SLExchangeEnv)
    (cfg : MonitoringConfig) :
    (executeGuaranteedStopLoss env (some cfg)).backup_methods =
      (List.takeWhile
          (fun s => ! executeStrategy env |cfg.position_size| s)
          executionStrategies).map (fun s => (s, false)) ++
        (match List.find? (fun s => executeStrategy env |cfg.position_size| s)
            executionStrategies with
          | some s => [(s, true)]
          | none => []) ∧
    (executeGuaranteedStopLoss env (some cfg)).failsafe_used =
      List.find? (fun s => executeStrategy env |cfg.position_size| s)
        executionStrategies ∧
    (executeGuaranteedStopLoss env (some cfg)).execution_successful =
      (List.find? (fun s => executeStrategy env |cfg.position_size| s)
        executionStrategies).isSome ∧
    ((executeGuaranteedStopLoss env (some cfg)).alert_sent = true ↔
      ∀ s ∈ executionStrategies, executeStrategy env |cfg.position_size| s = false) := by
  have hrun := runStrategies_spec env |cfg.position_size| executionStrategies
  refine ⟨?_, ?_, ?_, ?_⟩
  · simp [executeGuaranteedStopLoss, hrun]
  · simp [executeGuaranteedStopLoss, hrun]
  · simp [executeGuaranteedStopLoss, hrun]
  · simp only [executeGuaranteedStopLoss, hrun, Option.isNone_iff_eq_none,
      List.find?_eq_none, Bool.not_eq_true]

/-- Helper: the rung loop never deletes a rung: the ladder keeps its
length. -/
theorem checkTargetsLoop_length (pos : RapidPosition)
    (cp pp cv mm ht : ℚ) (ts : List RapidProfitTarget) :
    (checkTargetsLoop pos cp pp cv mm ht ts).1.length = ts.length := by
  induction ts with
  | nil => simp [checkTargetsLoop]
  | cons t rest ih =>
    cases hc : t.is_active &&
        rapidTargetTriggered pos.direction t cp pp cv mm ht with
    | true => simp [checkTargetsLoop, hc]
    | false => simp [checkTargetsLoop, hc, ih]

/-- Helper: when the loop fires rung `i` it was active and triggered, the
close fraction is its `percentage`, that rung alone is deactivated in place,
and the remaining size shrinks by exactly `remaining_size * percentage`. -/
theorem checkTargetsLoop_fired (pos : RapidPosition) (cp pp cv mm ht : ℚ) :
    ∀ (ts : List RapidProfitTarget) (i : ℕ) (p : ℚ),
      (checkTargetsLoop pos cp pp cv mm ht ts).2.2 = some (i, p) →
      ∃ t, ts[i]? = some t ∧ t.is_active = true ∧
        rapidTargetTriggered pos.direction t cp pp cv mm ht = true ∧
        p = t.percentage ∧
        (checkTargetsLoop pos cp pp cv mm ht ts).1[i]? =
          some { t with is_active := false } ∧
        (checkTargetsLoop pos cp pp cv mm ht ts).2.1.remaining_size =
          pos.remaining_size - pos.remaining_size * t.percentage := by
  intro ts
  induction ts with
  | nil =>
    intro i p h
    simp [checkTargetsLoop] at h
  | cons t rest ih =>
    intro i p h
    cases hc : t.is_active &&
        rapidTargetTriggered pos.direction t cp pp cv mm ht with
    | true =>
      rw [checkTargetsLoop] at h
      simp only [hc, if_true] at h
      obtain ⟨hi, hp⟩ := Prod.mk.injEq .. ▸ Option.some.injEq .. ▸ h
      rcases Bool.and_eq_true .. |>.mp hc with ⟨ha, ht2⟩
      refine ⟨t, ?_, ha, ht2, ?_, ?_, ?_⟩
      · rw [← hi]; simp
      · exact hp.symm
      · rw [checkTargetsLoop]
        simp only [hc, if_true, ← hi]
        simp
      · rw [checkTargetsLoop]
        simp only [hc, if_true]
    | false =>
      rw [checkTargetsLoop] at h
      simp only [hc, Bool.false_eq_true, if_false] at h
      rcases Option.map_eq_some'.mp h with ⟨⟨i0, p0⟩, hr, heq⟩
      obtain ⟨hi, hp⟩ := Prod.mk.injEq .. ▸ heq
      rcases ih i0 p0 hr with ⟨u, hu, hua, hutr, hup, hres, hrem⟩
      refine ⟨u, ?_, hua, hutr, by rw [← hp, hup], ?_, ?_⟩
      · rw [← hi]
        simpa using hu
      · rw [checkTargetsLoop]
        simp only [hc, Bool.false_eq_true, if_false, ← hi]
        simpa using hres
      · rw [checkTargetsLoop]
        simp only [hc, Bool.false_eq_true, if_false]
        exact hrem

/-- Helper: the fired rung is the first active triggered rung in list order:
every rung strictly before it fails the active-and-triggered test. -/
theorem checkTargetsLoop_first (pos : RapidPosition) (cp pp cv mm ht : ℚ) :
    ∀ (ts : List RapidProfitTarget) (i : ℕ) (p : ℚ),
      (checkTargetsLoop pos cp pp cv mm ht ts).2.2 = some (i, p) →
      ∀ j, j < i → ∀ u, ts[j]? = some u →
        (u.is_active &&
          rapidTargetTriggered pos.direction u cp pp cv mm ht) = false := by
  intro ts
  induction ts with
  | nil =>
    intro i p h
    simp [checkTargetsLoop] at h
  | cons t rest ih =>
    intro i p h j hj u hu
    cases hc : t.is_active &&
        rapidTargetTriggered pos.direction t cp pp cv mm ht with
    | true =>
      rw [checkTargetsLoop] at h
      simp only [hc, if_true] at h
      obtain ⟨hi, _⟩ := Prod.mk.injEq .. ▸ Option.some.injEq .. ▸ h
      omega
    | false =>
      rw [checkTargetsLoop] at h
      simp only [hc, Bool.false_eq_true, if_false] at h
      rcases Option.map_eq_some'.mp h with ⟨⟨i0, p0⟩, hr, heq⟩
      obtain ⟨hi, _⟩ := Prod.mk.injEq .. ▸ heq
      cases j with
      | zero =>
        simp at hu
        rw [← hu]
        exact hc
      | succ j0 =>
        simp at hu
        exact ih i0 p0 hr j0 (by omega) u hu

/-- Helper: an inactive rung is left untouched and can never be the fired
rung. -/
theorem checkTargetsLoop_inactive (pos : RapidPosition) (cp pp cv mm ht : ℚ) :
    ∀ (ts : List RapidProfitTarget) (j : ℕ) (u : RapidProfitTarget),
      ts[j]? = some u → u.is_active = false →
      (checkTargetsLoop pos cp pp cv mm ht ts).1[j]? = some u ∧
      ∀ p, (checkTargetsLoop pos cp pp cv mm ht ts).2.2 ≠ some (j, p) := by
  intro ts
  induction ts with
  | nil =>
    intro j u hu
    simp at hu
  | cons t rest ih =>
    intro j u hu hina
    cases hc : t.is_active &&
        rapidTargetTriggered pos.direction t cp pp cv mm ht with
    | true =>
      rcases Bool.and_eq_true .. |>.mp hc with ⟨ha, _⟩
      cases j with
      | zero =>
        simp at hu
        rw [← hu] at hina
        rw [hina] at ha
        cases ha
      | succ j0 =>
        rw [checkTargetsLoop]
        simp only [hc, if_true]
        constructor
        · simp at hu
          simpa using hu
        · intro p hp
          obtain ⟨hi, _⟩ := Prod.mk.injEq .. ▸ Option.some.injEq .. ▸ hp
          omega
    | false =>
      rw [checkTargetsLoop]
      simp only [hc, Bool.false_eq_true, if_false]
      cases j with
      | zero =>
        simp at hu
        refine ⟨by simpa using hu, ?_⟩
        intro p hp
        rcases Option.map_eq_some'.mp hp with ⟨⟨i0, p0⟩, hr, heq⟩
        obtain ⟨hi, _⟩ := Prod.mk.injEq .. ▸ heq
        omega
      | succ j0 =>
        simp at hu
        rcases ih j0 u hu hina with ⟨h1, h2⟩
        refine ⟨by simpa using h1, ?_⟩
        intro p hp
        rcases Option.map_eq_some'.mp hp with ⟨⟨i0, p0⟩, hr, heq⟩
        obtain ⟨hi, hp0⟩ := Prod.mk.injEq .. ▸ heq
        have : i0 = j0 := by omega
        rw [this] at hr
        exact h2 p0 hr

/-- Helper: when no rung fires the ladder and the position are returned
unchanged. -/
theorem checkTargetsLoop_none (pos : RapidPosition) (cp pp cv mm ht : ℚ) :
    ∀ (ts : List RapidProfitTarget),
      (checkTargetsLoop pos cp pp cv mm ht ts).2.2 = none →
      (checkTargetsLoop pos cp pp cv mm ht ts).1 = ts ∧
      (checkTargetsLoop pos cp pp cv mm ht ts).2.1 = pos := by
  intro ts
  induction ts with
  | nil =>
    intro _
    simp [checkTargetsLoop]
  | cons t rest ih =>
    intro h
    cases hc : t.is_active &&
        rapidTargetTriggered pos.direction t cp pp cv mm ht with
    | true =>
      rw [checkTargetsLoop] at h
      simp [hc] at h
    | false =>
      rw [checkTargetsLoop] at h ⊢
      simp only [hc, Bool.false_eq_true, if_false] at h ⊢
      simp only [Option.map_eq_none'] at h
      rcases ih h with ⟨h1, h2⟩
      simp [h1, h2]

/-- Helper: rungs other than the fired one are unchanged. -/
theorem checkTargetsLoop_other (pos : RapidPosition) (cp pp cv mm ht : ℚ) :
    ∀ (ts : List RapidProfitTarget) (i : ℕ) (p : ℚ),
      (checkTargetsLoop pos cp pp cv mm ht ts).2.2 = some (i, p) →
      ∀ j, j ≠ i → (checkTargetsLoop pos cp pp cv mm ht ts).1[j]? = ts[j]? := by
  intro ts
  induction ts with
  | nil =>
    intro i p h
    simp [checkTargetsLoop] at h
  | cons t rest ih =>
    intro i p h j hj
    cases hc : t.is_active &&
        rapidTargetTriggered pos.direction t cp pp cv mm ht with
    | true =>
      rw [checkTargetsLoop] at h ⊢
      simp only [hc, if_true] at h ⊢
      obtain ⟨hi, _⟩ := Prod.mk.injEq .. ▸ Option.some.injEq .. ▸ h
      cases j with
      | zero => omega
      | succ j0 => simp
    | false =>
      rw [checkTargetsLoop] at h ⊢
      simp only [hc, Bool.false_eq_true, if_false] at h ⊢
      rcases Option.map_eq_some'.mp h with ⟨⟨i0, p0⟩, hr, heq⟩
      obtain ⟨hi, _⟩ := Prod.mk.injEq .. ▸ heq
      cases j with
      | zero => simp
      | succ j0 =>
        have : j0 ≠ i0 := by omega
        simpa using ih i0 p0 hr j0 this

/-- Helper: pointwise description of the level list after one
`_process_price_update` pass. -/
theorem processTpLevels_get (side : Direction) (price : ℚ)
    (execOk : ℕ → Bool) :
    ∀ (ls : List TpLevel) (base j : ℕ) (l : TpLevel), ls[j]? = some l →
      (processTpLevels side price execOk ls base).1[j]? = some (
        if l.executed then l
        else if checkTpHit side l.price price then
          { l with executed := execOk (base + j) }
        else l) := by
  intro ls
  induction ls with
  | nil =>
    intro base j l hl
    simp at hl
  | cons a rest ih =>
    intro base j l hl
    cases j with
    | zero =>
      simp at hl
      rw [processTpLevels, ← hl]
      by_cases h1 : a.executed = true
      · simp [h1]
      · simp only [Bool.not_eq_true] at h1
        by_cases h2 : checkTpHit side a.price price = true
        · simp [h1, h2]
        · simp only [Bool.not_eq_true] at h2
          simp [h1, h2]
    | succ j0 =>
      simp only [List.getElem?_cons_succ] at hl
      have hrec := ih (base + 1) j0 l hl
      have harith : base + 1 + j0 = base + (j0 + 1) := by omega
      rw [processTpLevels]
      by_cases h1 : a.executed = true
      · simp only [h1, if_true, List.getElem?_cons_succ]
        rw [← harith]
        exact hrec
      · simp only [Bool.not_eq_true] at h1
        by_cases h2 : checkTpHit side a.price price = true
        · simp only [h1, Bool.false_eq_true, if_false, h2, if_true,
            List.getElem?_cons_succ]
          rw [← harith]
          exact hrec
        · simp only [Bool.not_eq_true] at h2
          simp only [h1, Bool.false_eq_true, if_false, h2, if_false,
            List.getElem?_cons_succ]
          rw [← harith]
          exact hrec

/-- Helper: only non-executed levels whose price is hit get an execution
attempt. -/
theorem processTpLevels_attempted (side : Direction) (price : ℚ)
    (execOk : ℕ → Bool) :
    ∀ (ls : List TpLevel) (base k : ℕ),
      k ∈ (processTpLevels side price execOk ls base).2 →
      ∃ j l, ls[j]? = some l ∧ k = base + j ∧ l.executed = false ∧
        checkTpHit side l.price price = true := by
  intro ls
  induction ls with
  | nil =>
    intro base k hk
    simp [processTpLevels] at hk
  | cons a rest ih =>
    intro base k hk
    rw [processTpLevels] at hk
    by_cases h1 : a.executed = true
    · simp only [h1, if_true] at hk
      rcases ih (base + 1) k hk with ⟨j, l, hl, hkj, hle, hhit⟩
      exact ⟨j + 1, l, by simpa using hl, by omega, hle, hhit⟩
    · simp only [Bool.not_eq_true] at h1
      by_cases h2 : checkTpHit side a.price price = true
      · simp only [h1, Bool.false_eq_true, if_false, h2, if_true,
          List.mem_cons] at hk
        rcases hk with hk | hk
        · exact ⟨0, a, by simp, by omega, h1, h2⟩
        · rcases ih (base + 1) k hk with ⟨j, l, hl, hkj, hle, hhit⟩
          exact ⟨j + 1, l, by simpa using hl, by omega, hle, hhit⟩
      · simp only [Bool.not_eq_true] at h2
        simp only [h1, Bool.false_eq_true, if_false, h2, if_false] at hk
        rcases ih (base + 1) k hk with ⟨j, l, hl, hkj, hle, hhit⟩
        exact ⟨j + 1, l, by simpa using hl, by omega, hle, hhit⟩

/-- C2: exactly-once semantics per rung.  In the rapid profit system a fired
rung was active, firing deactivates it in place and performs one reduction of
`remaining_size` by `remaining_size * percentage`; a rung already inactive is
skipped unchanged and can never be the fired rung of a later evaluation.  In
the guaranteed execution system a level marked `executed` is skipped
unchanged and no order is placed for it, and a successful execution of a hit
level marks it `executed`. -/
theorem exit_rung_idempotent :
    (∀ (pos : RapidPosition) (ts : List RapidProfitTarget)
        (cp pp cv mm ht : ℚ) (i : ℕ) (p : ℚ),
      (checkProfitTargets pos ts cp pp cv mm ht).2.2 = some (i, p) →
      ∃ t, ts[i]? = some t ∧ t.is_active = true ∧
        (checkProfitTargets pos ts cp pp cv mm ht).1[i]? =
          some { t with is_active := false } ∧
        (checkProfitTargets pos ts cp pp cv mm ht).2.1.remaining_size =
          pos.remaining_size - pos.remaining_size * t.percentage) ∧
    (∀ (pos : RapidPosition) (ts : List RapidProfitTarget)
        (cp pp cv mm ht : ℚ) (j : ℕ) (u : RapidProfitTarget),
      ts[j]? = some u → u.is_active = false →
      (checkProfitTargets pos ts cp pp cv mm ht).1[j]? = some u ∧
      ∀ p, (checkProfitTargets pos ts cp pp cv mm ht).2.2 ≠ some (j, p)) ∧
    (∀ (side : Direction) (ls : List TpLevel) (price : ℚ)
        (execOk : ℕ → Bool) (j : ℕ) (l : TpLevel),
      ls[j]? = some l → l.executed = true →
      (processPriceUpdate side ls price execOk).1[j]? = some l ∧
      j ∉ (processPriceUpdate side ls price execOk).2) ∧
    (∀ (side : Direction) (ls : List TpLevel) (price : ℚ)
        (execOk : ℕ → Bool) (j : ℕ) (l : TpLevel),
      ls[j]? = some l → l.executed = false →
      checkTpHit side l.price price = true → execOk j = true → 0 < price →
      (processPriceUpdate side ls price execOk).1[j]? =
        some { l with executed := true }) := by
  refine ⟨?_, ?_, ?_, ?_⟩
  · intro pos ts cp pp cv mm ht i p h
    rcases checkTargetsLoop_fired pos cp pp cv mm ht ts i p h with
      ⟨t, h1, h2, _, _, h5, h6⟩
    exact ⟨t, h1, h2, h5, h6⟩
  · intro pos ts cp pp cv mm ht j u hu hina
    exact checkTargetsLoop_inactive pos cp pp cv mm ht ts j u hu hina
  · intro side ls price execOk j l hl hexec
    unfold processPriceUpdate
    by_cases hp : price ≤ 0
    · simp [hp, hl]
    · simp only [hp, if_false]
      constructor
      · rw [processTpLevels_get side price execOk ls 0 j l hl]
        simp [hexec]
      · intro hmem
        rcases processTpLevels_attempted side price execOk ls 0 j hmem with
          ⟨j2, l2, hl2, hj2, hle2, _⟩
        have : j2 = j := by omega
        rw [this, hl] at hl2
        have hll : l = l2 := Option.some.injEq .. ▸ hl2
        rw [← hll, hexec] at hle2
        cases hle2
  · intro side ls price execOk j l hl hexec hhit hok hp
    unfold processPriceUpdate
    have hp2 : ¬ price ≤ 0 := not_le.mpr hp
    simp only [hp2, if_false]
    rw [processTpLevels_get side price execOk ls 0 j l hl]
    simp [hexec, hhit, hok]

/-- Witness for C2: a concrete inactive rung is skipped and cannot fire. -/
theorem exit_rung_idempotent_witness :
    (checkProfitTargets
        (setupRapidPosition 100 1 Direction.BUY 5 1)
        [⟨100, 1/2, 1, TriggerType.PRICE, true, some (3/10), 0, false⟩]
        200 1 1 1 1).1[0]? =
      some ⟨100, 1/2, 1, TriggerType.PRICE, true, some (3/10), 0, false⟩ ∧
    ∀ p, (checkProfitTargets
        (setupRapidPosition 100 1 Direction.BUY 5 1)
        [⟨100, 1/2, 1, TriggerType.PRICE, true, some (3/10), 0, false⟩]
        200 1 1 1 1).2.2 ≠ some (0, p) :=
  exit_rung_idempotent.2.1
    (setupRapidPosition 100 1 Direction.BUY 5 1)
    [⟨100, 1/2, 1, TriggerType.PRICE, true, some (3/10), 0, false⟩]
    200 1 1 1 1 0
    ⟨100, 1/2, 1, TriggerType.PRICE, true, some (3/10), 0, false⟩
    (by simp) rfl

/-- Helper: what `find?` returns is the first satisfying element. -/
theorem find?_split {α : Type} (p : α → Bool) :
    ∀ (l : List α) (a : α), l.find? p = some a →
      ∃ s t, l = s ++ a :: t ∧ ∀ x ∈ s, p x = false := by
  intro l
  induction l with
  | nil =>
    intro a h
    simp at h
  | cons x rest ih =>
    intro a h
    rw [List.find?_cons] at h
    cases hp : p x with
    | true =>
      rw [hp] at h
      simp at h
      exact ⟨[], rest, by simp [h], by simp⟩
    | false =>
      rw [hp] at h
      rcases ih a h with ⟨s, t, hst, hall⟩
      refine ⟨x :: s, t, by simp [hst], ?_⟩
      intro y hy
      rcases List.mem_cons.mp hy with hy | hy
      · rw [hy]; exact hp
      · exact hall y hy

/-- Helper: a fired normal stop is an active, priced, triggered rung of
minimal priority among all such rungs, and the result ladder is the input
with exactly that rung deactivated in place. -/
theorem checkNormalStops_fired (levels : List StopLossLevel)
    (direction : Direction) (cp cd mlp : ℚ) (i : ℕ) :
    (checkNormalStops levels direction cp cd mlp).2 = some i →
      levelCheck direction cp cd mlp levels i = true ∧
      (∀ j, j < levels.length →
        levelCheck direction cp cd mlp levels j = true →
        prioOf levels i ≤ prioOf levels j) ∧
      ∃ l, levels[i]? = some l ∧
        (checkNormalStops levels direction cp cd mlp).1 =
          levels.set i { l with is_active := false } := by
  intro h
  unfold checkNormalStops at h ⊢
  cases hf : List.find? (levelCheck direction cp cd mlp levels)
      (sortedOrder levels) with
  | none =>
    rw [hf] at h
    simp at h
  | some i0 =>
    rw [hf] at h
    dsimp only at h ⊢
    have hcheck := List.find?_some hf
    cases hl : levels[i0]? with
    | none =>
      exfalso
      unfold levelCheck at hcheck
      rw [hl] at hcheck
      cases hcheck
    | some l =>
      rw [hl] at h
      dsimp only at h ⊢
      simp only [Option.some.injEq] at h
      subst h
      refine ⟨hcheck, ?_, ⟨l, hl, rfl⟩⟩
      intro j hj hcj
      rcases find?_split (levelCheck direction cp cd mlp levels)
        (sortedOrder levels) i0 hf with ⟨s, t, hst, hsno⟩
      have hjmem : j ∈ sortedOrder levels := by
        have h1 : j ∈ List.range levels.length := List.mem_range.mpr hj
        exact ((List.perm_insertionSort
          (fun a b => prioOf levels a ≤ prioOf levels b)
          (List.range levels.length)).mem_iff).mpr h1
      haveI : IsTotal ℕ (fun a b => prioOf levels a ≤ prioOf levels b) :=
        ⟨fun a b => Nat.le_total _ _⟩
      haveI : IsTrans ℕ (fun a b => prioOf levels a ≤ prioOf levels b) :=
        ⟨fun _ _ _ hab hbc => Nat.le_trans hab hbc⟩
      have hsorted : List.Sorted
          (fun a b => prioOf levels a ≤ prioOf levels b)
          (sortedOrder levels) :=
        List.sorted_insertionSort _ _
      rw [hst] at hjmem hsorted
      rcases List.mem_append.mp hjmem with hjs | hjct
      · exact absurd hcj (by simp [hsno j hjs])
      · rcases List.mem_cons.mp hjct with hji | hjt
        · rw [hji]
        · have hpair := (List.pairwise_append.mp hsorted).2.1
          exact (List.pairwise_cons.mp hpair).1 j hjt

/-- Helper: when no rung fires the ladder is unchanged. -/
theorem checkNormalStops_noFire (levels : List StopLossLevel)
    (direction : Direction) (cp cd mlp : ℚ) :
    (checkNormalStops levels direction cp cd mlp).2 = none →
    (checkNormalStops levels direction cp cd mlp).1 = levels := by
  intro h
  unfold checkNormalStops at h ⊢
  cases hf : List.find? (levelCheck direction cp cd mlp levels)
      (sortedOrder levels) with
  | none => rfl
  | some i0 =>
    rw [hf] at h
    dsimp only at h
    cases hl : levels[i0]? with
    | none =>
      rw [hl] at h
      dsimp only at h
      cases h
    | some l =>
      rw [hl] at h
      dsimp only at h
      cases h

/-- Helper: `_check_normal_stops` never deletes a rung. -/
theorem checkNormalStops_length (levels : List StopLossLevel)
    (direction : Direction) (cp cd mlp : ℚ) :
    (checkNormalStops levels direction cp cd mlp).1.length = levels.length := by
  unfold checkNormalStops
  cases hf : List.find? (levelCheck direction cp cd mlp levels)
      (sortedOrder levels) with
  | none => rfl
  | some i0 =>
    dsimp only
    cases hl : levels[i0]? with
    | none => rfl
    | some l =>
      dsimp only
      exact List.length_set ..

/-- Helper: the ladder built by `_create_profit_targets` for entry 100,
confidence 1, expected duration 5: three PRICE rungs (priorities 1,2,3) and
then the TIME rung with priority 0 appended last. -/
theorem createProfitTargets_concrete :
    createProfitTargets 100 Direction.BUY 1 5 =
      [⟨501/5, 1/2, 1, TriggerType.PRICE, true, some (3/10), 0, true⟩,
       ⟨1003/10, 3/10, 2, TriggerType.PRICE, true, some (3/10), 0, true⟩,
       ⟨201/2, 1/5, 3, TriggerType.PRICE, true, some (3/10), 0, true⟩,
       ⟨5007/50, 4/5, 0, TriggerType.TIME, false, none, 240, true⟩] := by
  norm_num [createProfitTargets, min_def]

/-- C4 counterexample: in the rapid profit system the rungs are checked in
list order, not priority order.  At price 100.2 with hold time 240 s both the
priority-1 PRICE rung and the priority-0 TIME rung are active and triggered,
yet the evaluation fires the priority-1 rung (list index 0), skipping the
strictly lower-priority TIME rung (list index 3). -/
theorem profit_ladder_priority_counterexample :
    ((createProfitTargets 100 Direction.BUY 1 5)[3]?.map
        (fun t => t.priority)) = some 0 ∧
    ((createProfitTargets 100 Direction.BUY 1 5)[3]?.map
        (fun t => t.is_active)) = some true ∧
    ((createProfitTargets 100 Direction.BUY 1 5)[3]?.map
        (fun t => rapidTargetTriggered Direction.BUY t (501/5) (2/10) 1 (1/2) 240))
      = some true ∧
    (checkProfitTargets (setupRapidPosition 100 1 Direction.BUY 5 1)
        (createProfitTargets 100 Direction.BUY 1 5)
        (501/5) (2/10) 1 (1/2) 240).2.2 = some (0, 1/2) ∧
    ((createProfitTargets 100 Direction.BUY 1 5)[0]?.map
        (fun t => t.priority)) = some 1 := by
  rw [createProfitTargets_concrete]
  refine ⟨rfl, rfl, ?_, ?_, rfl⟩
  · norm_num [rapidTargetTriggered]
  · rw [checkProfitTargets, checkTargetsLoop]
    norm_num [rapidTargetTriggered, setupRapidPosition]

/-- C4 amended: in the aggressive stop system the rungs are checked in
ascending priority order (the fired rung is active, priced and triggered, of
minimal priority among all such rungs); in the rapid profit system the rungs
are checked in creation-list order (the three PRICE rungs, priorities 1,2,3,
before the TIME rung of priority 0, so the fired rung is the first
active-and-triggered rung in list order, not the priority-least).  In both
systems at most one rung fires per evaluation cycle and the fired rung is
deactivated in place, never deleted. -/
theorem ladder_evaluation_amended :
    (∀ (levels : List StopLossLevel) (direction : Direction) (cp cd mlp : ℚ)
        (i : ℕ),
      (checkNormalStops levels direction cp cd mlp).2 = some i →
      levelCheck direction cp cd mlp levels i = true ∧
      (∀ j, j < levels.length →
        levelCheck direction cp cd mlp levels j = true →
        prioOf levels i ≤ prioOf levels j) ∧
      ∃ l, levels[i]? = some l ∧
        (checkNormalStops levels direction cp cd mlp).1 =
          levels.set i { l with is_active := false }) ∧
    (∀ (levels : List StopLossLevel) (direction : Direction) (cp cd mlp : ℚ),
      (checkNormalStops levels direction cp cd mlp).2 = none →
      (checkNormalStops levels direction cp cd mlp).1 = levels) ∧
    (∀ (levels : List StopLossLevel) (direction : Direction) (cp cd mlp : ℚ),
      (checkNormalStops levels direction cp cd mlp).1.length = levels.length) ∧
    (∀ (pos : RapidPosition) (ts : List RapidProfitTarget)
        (cp pp cv mm ht : ℚ) (i : ℕ) (p : ℚ),
      (checkProfitTargets pos ts cp pp cv mm ht).2.2 = some (i, p) →
      (∃ t, ts[i]? = some t ∧ t.is_active = true ∧
        rapidTargetTriggered pos.direction t cp pp cv mm ht = true ∧
        (checkProfitTargets pos ts cp pp cv mm ht).1[i]? =
          some { t with is_active := false }) ∧
      (∀ j, j < i → ∀ u, ts[j]? = some u →
        (u.is_active &&
          rapidTargetTriggered pos.direction u cp pp cv mm ht) = false) ∧
      (∀ j, j ≠ i →
        (checkProfitTargets pos ts cp pp cv mm ht).1[j]? = ts[j]?)) ∧
    (∀ (pos : RapidPosition) (ts : List RapidProfitTarget)
        (cp pp cv mm ht : ℚ),
      (checkProfitTargets pos ts cp pp cv mm ht).1.length = ts.length) := by
  refine ⟨?_, checkNormalStops_noFire, checkNormalStops_length, ?_, ?_⟩
  · intro levels direction cp cd mlp i h
    exact checkNormalStops_fired levels direction cp cd mlp i h
  · intro pos ts cp pp cv mm ht i p h
    rcases checkTargetsLoop_fired pos cp pp cv mm ht ts i p h with
      ⟨t, h1, h2, h3, _, h5, _⟩
    exact ⟨⟨t, h1, h2, h3, h5⟩,
      checkTargetsLoop_first pos cp pp cv mm ht ts i p h,
      checkTargetsLoop_other pos cp pp cv mm ht ts i p h⟩
  · intro pos ts cp pp cv mm ht
    exact checkTargetsLoop_length pos cp pp cv mm ht ts

/-- Witness for the amended C4 at a concrete one-rung stop ladder: the rung
fires with minimal priority and is deactivated in place. -/
theorem ladder_evaluation_amended_witness :
    levelCheck Direction.BUY 98 0 1
      [⟨"initial_stop", 99, [StopCond.PRICE], 3, true⟩] 0 = true ∧
    (∀ j, j < 1 →
      levelCheck Direction.BUY 98 0 1
        [⟨"initial_stop", 99, [StopCond.PRICE], 3, true⟩] j = true →
      prioOf [⟨"initial_stop", 99, [StopCond.PRICE], 3, true⟩] 0 ≤
        prioOf [⟨"initial_stop", 99, [StopCond.PRICE], 3, true⟩] j) ∧
    ∃ l, ([⟨"initial_stop", 99, [StopCond.PRICE], 3, true⟩] :
        List StopLossLevel)[0]? = some l ∧
      (checkNormalStops [⟨"initial_stop", 99, [StopCond.PRICE], 3, true⟩]
          Direction.BUY 98 0 1).1 =
        [⟨"initial_stop", 99, [StopCond.PRICE], 3, true⟩].set 0
          { l with is_active := false } :=
  ladder_evaluation_amended.1
    [⟨"initial_stop", 99, [StopCond.PRICE], 3, true⟩]
    Direction.BUY 98 0 1 0
    (by
      rw [checkNormalStops]
      norm_num [sortedOrder, List.insertionSort, prioOf, levelCheck,
        stopEligible, stopTriggered])

/-- Helper: evolution is reflexive. -/
theorem targetsEvolve_refl (ts : List RapidProfitTarget) :
    TargetsEvolve ts ts := by
  induction ts with
  | nil => exact List.Forall₂.nil
  | cons t rest ih => exact List.Forall₂.cons (Or.inl rfl) ih

/-- Helper: evolution is transitive. -/
theorem targetsEvolve_trans :
    ∀ {a b c : List RapidProfitTarget},
      TargetsEvolve a b → TargetsEvolve b c → TargetsEvolve a c := by
  intro a b c hab hbc
  induction hab generalizing c with
  | nil =>
    cases hbc
    exact List.Forall₂.nil
  | @cons x y a2 b2 hxy hrest ih =>
    cases hbc with
    | cons hyz hrest2 =>
      rename_i z c2
      refine List.Forall₂.cons ?_ (ih hrest2)
      rcases hxy with h1 | h1 <;> rcases hyz with h2 | h2 <;>
        simp [h1, h2] at *

/-- Helper: one ladder evaluation is an evolution step. -/
theorem checkTargetsLoop_evolve (pos : RapidPosition) (cp pp cv mm ht : ℚ) :
    ∀ ts : List RapidProfitTarget,
      TargetsEvolve ts (checkTargetsLoop pos cp pp cv mm ht ts).1 := by
  intro ts
  induction ts with
  | nil => exact List.Forall₂.nil
  | cons t rest ih =>
    cases hc : t.is_active &&
        rapidTargetTriggered pos.direction t cp pp cv mm ht with
    | true =>
      rw [checkTargetsLoop]
      simp only [hc, if_true]
      exact List.Forall₂.cons (Or.inr rfl) (targetsEvolve_refl rest)
    | false =>
      rw [checkTargetsLoop]
      simp only [hc, Bool.false_eq_true, if_false]
      exact List.Forall₂.cons (Or.inl rfl) ih

/-- Helper: a whole run of evaluation cycles is an evolution. -/
theorem runProfitChecks_evolve (steps : List RapidInputs) :
    ∀ (pos : RapidPosition) (ts : List RapidProfitTarget),
      TargetsEvolve ts (runProfitChecks (pos, ts) steps).2 := by
  induction steps with
  | nil =>
    intro pos ts
    exact targetsEvolve_refl ts
  | cons inp rest ih =>
    intro pos ts
    rw [runProfitChecks]
    exact targetsEvolve_trans
      (checkTargetsLoop_evolve pos inp.current_price inp.profit_percent
        inp.current_volume inp.market_momentum inp.hold_time ts)
      (ih _ _)

/-- Helper: evolution never increases the active close-fraction sums, for
ladders with nonnegative close fractions. -/
theorem targetsEvolve_sums {ts ts2 : List RapidProfitTarget}
    (h : TargetsEvolve ts ts2) (hpos : ∀ t ∈ ts, 0 ≤ t.percentage) :
    activeCloseSum ts2 ≤ activeCloseSum ts ∧
    activePriceCloseSum ts2 ≤ activePriceCloseSum ts := by
  induction h with
  | nil => simp [activeCloseSum, activePriceCloseSum]
  | @cons a b l1 l2 hab hrest ih =>
    have hpa : 0 ≤ a.percentage := hpos a (by simp)
    have hrest2 : ∀ t ∈ l1, 0 ≤ t.percentage := fun t htl => hpos t (by simp [htl])
    rcases ih hrest2 with ⟨ih1, ih2⟩
    rcases hab with hb | hb
    · subst hb
      constructor
      · simp only [activeCloseSum]
        exact add_le_add_left ih1 _
      · simp only [activePriceCloseSum]
        exact add_le_add_left ih2 _
    · subst hb
      constructor
      · simp only [activeCloseSum]
        refine add_le_add ?_ ih1
        by_cases ha : a.is_active = true <;> simp [ha, hpa]
      · simp only [activePriceCloseSum]
        refine add_le_add ?_ ih2
        by_cases ha : a.is_active = true ∧ a.trigger_type = TriggerType.PRICE <;>
          simp [ha, hpa]

/-- Helper: close fractions of a freshly created ladder are 0.5/0.3/0.2 on
the PRICE rungs plus 0.8 on the TIME rung: the PRICE sum is exactly 1 and
the total is 1.8, for every setup input. -/
theorem createProfitTargets_sums (entry : ℚ) (dir : Direction)
    (conf dur : ℚ) :
    activePriceCloseSum (createProfitTargets entry dir conf dur) = 1 ∧
    activeCloseSum (createProfitTargets entry dir conf dur) = 9/5 ∧
    ∀ t ∈ createProfitTargets entry dir conf dur, 0 ≤ t.percentage := by
  have hne : (TriggerType.TIME = TriggerType.PRICE) = False := by simp
  refine ⟨?_, ?_, ?_⟩
  · norm_num [createProfitTargets, activePriceCloseSum, hne]
  · norm_num [createProfitTargets, activeCloseSum]
  · intro t htmem
    simp only [createProfitTargets, List.mem_cons, List.not_mem_nil,
      or_false] at htmem
    rcases htmem with h | h | h | h <;> rw [h] <;> norm_num

/-- C8 counterexample: immediately after `setup_rapid_profit` (entry 100,
confidence 1, expected duration 5) all four rungs are active and the sum of
their close fractions is 1.8 > 1.0. -/
theorem profit_close_sum_counterexample :
    activeCloseSum (createProfitTargets 100 Direction.BUY 1 5) = 9/5 ∧
    ¬ activeCloseSum (createProfitTargets 100 Direction.BUY 1 5) ≤ 1 := by
  rw [createProfitTargets_concrete]
  norm_num [activeCloseSum]

/-- C8 amended: for every position set up through `setup_rapid_profit` and
after any sequence of ladder evaluations, the close fractions of the
still-active PRICE rungs sum to at most 1.0, and the close fractions of all
still-active rungs (the TIME rung included) sum to at most 1.8. -/
theorem profit_close_sum_amended (entry size : ℚ) (dir : Direction)
    (dur conf : ℚ) (steps : List RapidInputs) :
    activePriceCloseSum
      (runProfitChecks (setupRapidPosition entry size dir dur conf,
        createProfitTargets entry dir conf dur) steps).2 ≤ 1 ∧
    activeCloseSum
      (runProfitChecks (setupRapidPosition entry size dir dur conf,
        createProfitTargets entry dir conf dur) steps).2 ≤ 9/5 := by
  rcases createProfitTargets_sums entry dir conf dur with ⟨h1, h2, h3⟩
  rcases targetsEvolve_sums
    (runProfitChecks_evolve steps (setupRapidPosition entry size dir dur conf)
      (createProfitTargets entry dir conf dur)) h3 with ⟨hs1, hs2⟩
  exact ⟨h1 ▸ hs2, h2 ▸ hs1⟩

/-- C5: `can_open_position` evaluates the admission rules in the order mode
enabled, position cap, daily cap, minimum interval, and returns not-allowed
with the reason of the first failing rule; in particular, whenever the mode
is enabled and the open-position count has reached the cap, the result is
not-allowed with the position-cap reason, regardless of the later rules. -/
theorem can_open_position_rule_order (st : ModeState) (today : ℤ) (now : ℚ) :
    (st.config.enabled = false →
      canOpenPosition st today now = ⟨false, CanOpenReason.modeDisabled⟩) ∧
    (st.config.enabled = true →
      st.active_position_count ≥ st.config.max_positions →
      canOpenPosition st today now = ⟨false, CanOpenReason.maxPositionsReached⟩) ∧
    (st.config.enabled = true →
      st.active_position_count < st.config.max_positions →
      (resetDailyCounters st today).daily_trades ≥ st.config.max_daily_trades →
      canOpenPosition st today now = ⟨false, CanOpenReason.dailyLimitReached⟩) ∧
    (∀ t, st.config.enabled = true →
      st.active_position_count < st.config.max_positions →
      (resetDailyCounters st today).daily_trades < st.config.max_daily_trades →
      st.last_trade_time = some t →
      now - t < st.config.min_interval_seconds →
      canOpenPosition st today now = ⟨false, CanOpenReason.intervalTooShort⟩) ∧
    (∀ t, st.config.enabled = true →
      st.active_position_count < st.config.max_positions →
      (resetDailyCounters st today).daily_trades < st.config.max_daily_trades →
      st.last_trade_time = some t →
      ¬ (now - t < st.config.min_interval_seconds) →
      canOpenPosition st today now = ⟨true, CanOpenReason.allowed⟩) ∧
    (st.config.enabled = true →
      st.active_position_count < st.config.max_positions →
      (resetDailyCounters st today).daily_trades < st.config.max_daily_trades →
      st.last_trade_time = none →
      canOpenPosition st today now = ⟨true, CanOpenReason.allowed⟩) := by
  have hcfg : (resetDailyCounters st today).config = st.config := by
    unfold resetDailyCounters
    split_ifs <;> rfl
  have hcnt : (resetDailyCounters st today).active_position_count =
      st.active_position_count := by
    unfold resetDailyCounters
    split_ifs <;> rfl
  have hlast : (resetDailyCounters st today).last_trade_time =
      st.last_trade_time := by
    unfold resetDailyCounters
    split_ifs <;> rfl
  refine ⟨?_, ?_, ?_, ?_, ?_, ?_⟩
  · intro h
    unfold canOpenPosition
    simp [hcfg, h]
  · intro h1 h2
    unfold canOpenPosition
    simp [hcfg, hcnt, h1, h2]
  · intro h1 h2 h3
    unfold canOpenPosition
    simp [hcfg, hcnt, h1, not_le.mpr h2, h3]
  · intro t h1 h2 h3 h4 h5
    unfold canOpenPosition
    simp [hcfg, hcnt, hlast, h1, not_le.mpr h2, not_le.mpr h3, h4, h5]
  · intro t h1 h2 h3 h4 h5
    unfold canOpenPosition
    simp [hcfg, hcnt, hlast, h1, not_le.mpr h2, not_le.mpr h3, h4, h5]
  · intro h1 h2 h3 h4
    unfold canOpenPosition
    simp [hcfg, hcnt, hlast, h1, not_le.mpr h2, not_le.mpr h3, h4]

/-- Witness for C5, Scenario A: mode enabled with
`maxConcurrentPositions = 1` and one open position; the second open request
is rejected with the position-cap reason even though the daily cap (5) and
the interval rule would pass. -/
theorem can_open_position_rule_order_witness :
    canOpenPosition
      ⟨⟨"scalping", true, 1, 5/100, 60, 5, 7/10⟩, 1, 0, none, 0⟩ 0 0 =
      ⟨false, CanOpenReason.maxPositionsReached⟩ :=
  (can_open_position_rule_order
    ⟨⟨"scalping", true, 1, 5/100, 60, 5, 7/10⟩, 1, 0, none, 0⟩ 0 0).2.1
    rfl (by decide)

/-- C10: every call to `reset_portfolio` raises AttributeError at
`aggressive_stop_system.active_positions.clear()`; at the point of the raise
the portfolio manager's own dictionaries and the rapid profit system's
`active_positions`/`profit_targets` are already cleared, while the
aggressive system, both conservative systems and the trading-mode manager
lists keep their prior values. -/
theorem reset_portfolio_partial_clear (now : ℚ) (st : SystemState) :
    (resetPortfolio now st).2 = some PyError.attributeError ∧
    (resetPortfolio now st).1.pm.positions = [] ∧
    (resetPortfolio now st).1.pm.active_symbols = [] ∧
    (resetPortfolio now st).1.pm.all_positions = [] ∧
    (resetPortfolio now st).1.pm.total_portfolio_value = 0 ∧
    (resetPortfolio now st).1.pm.total_risk_exposure = 0 ∧
    (resetPortfolio now st).1.rapid.active_positions = [] ∧
    (resetPortfolio now st).1.rapid.profit_targets = [] ∧
    (resetPortfolio now st).1.rapid.trailing_configs =
      st.rapid.trailing_configs ∧
    (resetPortfolio now st).1.aggr = st.aggr ∧
    (resetPortfolio now st).1.consProfit = st.consProfit ∧
    (resetPortfolio now st).1.consStop = st.consStop ∧
    (resetPortfolio now st).1.modeScalping = st.modeScalping ∧
    (resetPortfolio now st).1.modeConservative = st.modeConservative := by
  simp [resetPortfolio, aggrHasAttr]

/-- C6: one `sync_positions` cycle with the exchange reporting no positions
removes the tracked position from the profit systems and the stop systems,
but the trading-mode manager's scalping list still holds the position's
dict afterwards: the membership test `position_id in active_positions[mode]`
compares the id string against dict entries and never matches. -/
theorem sync_cleanup_leaves_mode_list :
    let p1pos : RapidPosition :=
      ⟨some "BTCUSDT", 100, 1, Direction.BUY, 10, 1/2, 0, 0, 0, 1, 0, false⟩
    let tgt : RapidProfitTarget :=
      ⟨501/5, 1/2, 1, TriggerType.PRICE, false, none, 0, true⟩
    let lvl : StopLossLevel := ⟨"initial", 99, [StopCond.PRICE], 1, true⟩
    let minfo : ModePositionInfo :=
      ⟨"BTCUSDT", Direction.BUY, 100, 1, "p1", 1/2, 10, "scalping", true⟩
    let st0 : SystemState :=
      ⟨⟨[("p1", p1pos)], [("p1", [tgt])],
          [("p1", ⟨15/100, 8/100, 2/10, 11/10, 95/100⟩)]⟩,
        ⟨[("p1", [lvl])], [("p1", ⟨0, 0, 0, 0, 0, 0⟩)],
          [("p1", ⟨15/100, 25/100, 300, 3/10, 1/2, 4/10⟩)],
          [("p1", false)], [("p1", 0)]⟩,
        ⟨[], [], [], [], []⟩, ⟨[], [], [], []⟩,
        [PyVal.posDict minfo], [], ⟨[], [], [], 0, 0, 0⟩⟩
    (syncPositions [] (fun s => s) st0).rapid.active_positions = [] ∧
    (syncPositions [] (fun s => s) st0).rapid.profit_targets = [] ∧
    (syncPositions [] (fun s => s) st0).rapid.trailing_configs = [] ∧
    (syncPositions [] (fun s => s) st0).aggr.active_stops = [] ∧
    (syncPositions [] (fun s => s) st0).aggr.risk_metrics = [] ∧
    (syncPositions [] (fun s => s) st0).aggr.stop_configs = [] ∧
    (syncPositions [] (fun s => s) st0).modeScalping =
      [PyVal.posDict minfo] := by
  simp [syncPositions, getLocalPositions, cleanupPosition, rapidCleanup,
    aggrCleanup, consProfitCleanup, consStopCleanup, modeListCleanup,
    pyContains, pyEq, alistErase, alistGet, alistSet]

/-- C7: importing an exchange position with no local match registers it and
its default profit ladder (0.2/0.3/0.5 percent targets closing 0.5/0.3/0.2)
in the rapid profit system, but the AttributeError on
`aggressive_stop_system.active_positions` aborts the rest of the import: no
stop level is attached and the scalping mode list stays empty. -/
theorem external_import_partial_registration :
    let st0 : SystemState :=
      ⟨⟨[], [], []⟩, ⟨[], [], [], [], []⟩, ⟨[], [], [], [], []⟩,
        ⟨[], [], [], []⟩, [], [], ⟨[], [], [], 0, 0, 0⟩⟩
    let bp : BybitPos := ⟨"BTCUSDT", Side.buy, 1, 100, 100, 0⟩
    (syncPositions [bp] (fun _ => "external_BTCUSDT") st0).rapid.active_positions =
      [("external_BTCUSDT",
        ⟨some "BTCUSDT", 100, 1, Direction.BUY, 10, 1/2, 0, 0, 0, 1, 0, true⟩)] ∧
    (syncPositions [bp] (fun _ => "external_BTCUSDT") st0).rapid.profit_targets =
      [("external_BTCUSDT",
        [⟨501/5, 1/2, 1, TriggerType.PRICE, false, none, 0, true⟩,
         ⟨1003/10, 3/10, 2, TriggerType.PRICE, false, none, 0, true⟩,
         ⟨201/2, 1/5, 3, TriggerType.PRICE, false, none, 0, true⟩])] ∧
    (syncPositions [bp] (fun _ => "external_BTCUSDT") st0).aggr.active_stops = [] ∧
    (syncPositions [bp] (fun _ => "external_BTCUSDT") st0).modeScalping = [] := by
  refine ⟨?_, ?_, ?_, ?_⟩ <;>
    norm_num [syncPositions, getLocalPositions, registerExternalPosition,
      aggrHasAttr, alistGet, alistSet]

